import Mathlib

/-!
Shallow embedding of the netmon-tui observation/analysis pipeline and
firewall engine, translated from the Rust sources under `src/`:

* `src/firewall/rules.rs`, `src/firewall/engine.rs` — rule model and engine
* `src/analysis/connections.rs` — connection tracker
* `src/analysis/statistics.rs` — statistics collector
* `src/analysis/protocols.rs` — protocol classifier
* `src/traffic/inspector.rs` — flow inspector
* `src/traffic/analyzer.rs` — traffic analyzer

Modelling conventions:
* Machine integers (`u8/u16/u32/u64/usize`) become `Nat`; none of the verified
  code paths can overflow at the claimed inputs, and the counters in question
  only grow by small increments.
* `f64` and time values (`SystemTime`/`Instant`) become `ℚ`; all arithmetic
  appearing in the verified claims is `+ - * /` and comparisons, which `ℚ`
  models exactly (concrete counterexample inputs are chosen to be exactly
  representable in `f64` as well).
* Rust `HashMap` becomes an association list with insertion-order iteration
  (a deterministic refinement of the arbitrary iteration order) and
  `VecDeque` becomes a `List` with `push_back = append`, `pop_front = tail`.
* Display-only `String` fields (`name`, `description`, textual ids) are
  omitted: no computation in the sources branches on them.  Key strings
  produced by `format!("{}:{}", a, b)` are modelled as the ordered pair
  `(a, b)`, since that formatting is injective on socket addresses.
-/

/-- IP addresses (`std::net::IpAddr`): a V4 address as its four octets or a
V6 address as its eight 16-bit segments. -/
inductive IpAddrM where
  | v4 (a b c d : Nat)
  | v6 (s0 s1 s2 s3 s4 s5 s6 s7 : Nat)
deriving DecidableEq, Repr

/-- The numeric components of an address, most significant first (the octets
of a V4 address, the segments of a V6 address). -/
def IpAddrM.fields : IpAddrM → List Nat
  | .v4 a b c d => [a, b, c, d]
  | .v6 s0 s1 s2 s3 s4 s5 s6 s7 => [s0, s1, s2, s3, s4, s5, s6, s7]

/-- Strict lexicographic order on lists of naturals (Rust's derived `Ord`
on fixed-size integer arrays). -/
def natListLt : List Nat → List Nat → Bool
  | [], [] => false
  | [], _ :: _ => true
  | _ :: _, [] => false
  | x :: xs, y :: ys =>
    if x < y then true else if y < x then false else natListLt xs ys

/-- Rust's `Ord` on `IpAddr`: every V4 address is below every V6 address;
same-family addresses compare componentwise. -/
def IpAddrM.ltb : IpAddrM → IpAddrM → Bool
  | .v4 a b c d, .v4 a' b' c' d' => natListLt [a, b, c, d] [a', b', c', d']
  | .v4 _ _ _ _, .v6 _ _ _ _ _ _ _ _ => true
  | .v6 _ _ _ _ _ _ _ _, .v4 _ _ _ _ => false
  | .v6 s0 s1 s2 s3 s4 s5 s6 s7, .v6 t0 t1 t2 t3 t4 t5 t6 t7 =>
    natListLt [s0, s1, s2, s3, s4, s5, s6, s7] [t0, t1, t2, t3, t4, t5, t6, t7]

/-- `std::net::SocketAddr`: an IP address and a port. -/
structure SockAddr where
  ip : IpAddrM
  port : Nat
deriving DecidableEq, Repr

/-- Rust's `Ord` on `SocketAddr`: by address, then by port. -/
def SockAddr.ltb (x y : SockAddr) : Bool :=
  IpAddrM.ltb x.ip y.ip || (x.ip == y.ip && decide (x.port < y.port))

theorem natListLt_irrefl : ∀ xs, natListLt xs xs = false := by
  intro xs
  induction xs with
  | nil => rfl
  | cons x xs ih => simp [natListLt, ih]

theorem natListLt_asymm : ∀ xs ys, natListLt xs ys = true → natListLt ys xs = false := by
  intro xs
  induction xs with
  | nil =>
    intro ys h
    cases ys with
    | nil => simp [natListLt] at h
    | cons y ys => simp [natListLt]
  | cons x xs ih =>
    intro ys h
    cases ys with
    | nil => simp [natListLt] at h
    | cons y ys =>
      simp only [natListLt] at h ⊢
      by_cases hxy : x < y
      · have h2 : ¬ y < x := by omega
        simp [h2, hxy]
      · by_cases hyx : y < x
        · simp [hxy, hyx] at h
        · simp only [if_neg hxy, if_neg hyx] at h
          simp [hxy, hyx, ih ys h]

theorem natListLt_total_eq : ∀ xs ys, natListLt xs ys = false → natListLt ys xs = false → xs = ys := by
  intro xs
  induction xs with
  | nil =>
    intro ys h _
    cases ys with
    | nil => rfl
    | cons y ys => simp [natListLt] at h
  | cons x xs ih =>
    intro ys h h'
    cases ys with
    | nil => simp [natListLt] at h'
    | cons y ys =>
      simp only [natListLt] at h h'
      by_cases hxy : x < y
      · simp [hxy] at h
      · by_cases hyx : y < x
        · simp [hyx, hxy] at h'
        · simp only [if_neg hxy, if_neg hyx] at h h'
          have hx : x = y := by omega
          rw [hx, ih ys h h']

theorem IpAddrM.ltb_irrefl (x : IpAddrM) : IpAddrM.ltb x x = false := by
  cases x <;> simp only [IpAddrM.ltb] <;> exact natListLt_irrefl _

theorem IpAddrM.ltb_asymm (x y : IpAddrM) (h : IpAddrM.ltb x y = true) :
    IpAddrM.ltb y x = false := by
  cases x <;> cases y <;> simp only [IpAddrM.ltb] at h ⊢ <;>
    first
      | rfl
      | exact natListLt_asymm _ _ h
      | cases h

theorem IpAddrM.ltb_total_eq (x y : IpAddrM) (h : IpAddrM.ltb x y = false)
    (h' : IpAddrM.ltb y x = false) : x = y := by
  cases x <;> cases y <;> simp only [IpAddrM.ltb] at h h'
  · have := natListLt_total_eq _ _ h h'
    simp_all
  · exact absurd h (by simp)
  · exact absurd h' (by simp)
  · have := natListLt_total_eq _ _ h h'
    simp_all

theorem sockAddr_ltb_asymm (x y : SockAddr) (h : SockAddr.ltb x y = true) :
    SockAddr.ltb y x = false := by
  unfold SockAddr.ltb at h ⊢
  rcases Bool.or_eq_true_iff.mp h with hip | hb
  · have h1 := IpAddrM.ltb_asymm _ _ hip
    have h2 : (y.ip == x.ip) = false := by
      apply beq_eq_false_iff_ne.mpr
      intro he
      rw [he] at hip
      rw [he] at h1
      rw [hip] at h1
      cases h1
    simp [h1, h2]
  · obtain ⟨hipeq, hport⟩ := Bool.and_eq_true_iff.mp hb
    have hip : x.ip = y.ip := by simpa using hipeq
    have hp : x.port < y.port := by simpa using hport
    rw [hip]
    simp [IpAddrM.ltb_irrefl, Nat.lt_asymm hp]

theorem sockAddr_ltb_total_eq (x y : SockAddr) (h : SockAddr.ltb x y = false)
    (h' : SockAddr.ltb y x = false) : x = y := by
  unfold SockAddr.ltb at h h'
  simp only [Bool.or_eq_false_iff, Bool.and_eq_false_iff] at h h'
  have hip : x.ip = y.ip := IpAddrM.ltb_total_eq _ _ h.1 h'.1
  have hport : x.port = y.port := by
    rcases h.2 with hc | hc
    · exact absurd hip (by simpa using hc)
    · rcases h'.2 with hc' | hc'
      · exact absurd hip.symm (by simpa using hc')
      · simp only [decide_eq_false_iff_not, Nat.not_lt] at hc hc'
        omega
  cases x
  cases y
  simp_all

/-- The direction-agnostic pair key.  The Rust code builds the key string
`format!("{}:{}", a, b)` from the smaller address first; since that
formatting is injective on socket addresses we model the key as the ordered
pair itself. -/
abbrev PairKey := SockAddr × SockAddr

/-- `ConnectionTracker::connection_key` (src/analysis/connections.rs:142-149):
a consistent key regardless of direction. -/
def connection_key (addr1 addr2 : SockAddr) : PairKey :=
  if SockAddr.ltb addr1 addr2 then (addr1, addr2) else (addr2, addr1)

/-- `TrafficInspector::generate_flow_id` (src/traffic/inspector.rs:192-199):
a consistent flow ID regardless of direction. -/
def generate_flow_id (src dst : SockAddr) : PairKey :=
  if SockAddr.ltb src dst then (src, dst) else (dst, src)

theorem connection_key_comm (a b : SockAddr) :
    connection_key a b = connection_key b a := by
  unfold connection_key
  cases hab : SockAddr.ltb a b with
  | true =>
    have := sockAddr_ltb_asymm a b hab
    simp [this]
  | false =>
    cases hba : SockAddr.ltb b a with
    | true => simp
    | false =>
      have := sockAddr_ltb_total_eq a b hab hba
      simp [this]

theorem generate_flow_id_comm (a b : SockAddr) :
    generate_flow_id a b = generate_flow_id b a := by
  unfold generate_flow_id
  cases hab : SockAddr.ltb a b with
  | true =>
    have := sockAddr_ltb_asymm a b hab
    simp [this]
  | false =>
    cases hba : SockAddr.ltb b a with
    | true => simp
    | false =>
      have := sockAddr_ltb_total_eq a b hab hba
      simp [this]

/-- The textual form of an IP address as it appears in `PacketInfo.src_ip` /
`dst_ip` (a Rust `String`): either a well-formed dotted-quad IPv4 literal,
a well-formed IPv6 literal, or a malformed string. -/
inductive IpStr where
  | v4str (a b c d : Nat)
  | v6str (s0 s1 s2 s3 s4 s5 s6 s7 : Nat)
  | malformed
deriving DecidableEq, Repr

/-- `str.parse::<IpAddr>().ok()`: both well-formed IPv4 and IPv6 literals
parse; malformed strings do not. -/
def parseIpAddr : IpStr → Option IpAddrM
  | .v4str a b c d => some (.v4 a b c d)
  | .v6str s0 s1 s2 s3 s4 s5 s6 s7 => some (.v6 s0 s1 s2 s3 s4 s5 s6 s7)
  | .malformed => none

/-- `format!("{}:{}", ip, port).parse::<SocketAddr>().ok()`: only dotted-quad
IPv4 literals succeed — an IPv6 literal concatenated with `:port` lacks the
required brackets, so `SocketAddr` parsing rejects it. -/
def parseSockAddrStr : IpStr → Nat → Option SockAddr
  | .v4str a b c d, port => some ⟨.v4 a b c d, port⟩
  | .v6str _ _ _ _ _ _ _ _, _ => none
  | .malformed, _ => none

/-- The `protocol: String` field of `PacketInfo`, restricted to the
equivalence classes the sources distinguish by `match`. -/
inductive ProtoTag where
  | tcp | udp | icmp | other
deriving DecidableEq, Repr

/-- `PacketInfo` (src/capture/pcap_engine.rs:21-29). -/
structure PacketInfo where
  timestamp : ℚ
  length : Nat
  protocol : ProtoTag
  src_ip : Option IpStr
  dst_ip : Option IpStr
  src_port : Option Nat
  dst_port : Option Nat
deriving DecidableEq, Repr

/-- `ProtocolType` (src/analysis/protocols.rs:5-19). -/
inductive ProtocolType where
  | http | https | ssh | dns | ftp | smtp | pop3 | imap | telnet
  | tcp (port : Nat)
  | udp (port : Nat)
  | icmp
  | unknown
deriving DecidableEq, Repr

/-- `ProtocolInfo` (src/analysis/protocols.rs:22-29), minus the display-only
`description` string. -/
structure ProtocolInfo where
  protocol_type : ProtocolType
  is_encrypted : Bool
  default_port : Option Nat
  packet_count : Nat
  byte_count : Nat
deriving DecidableEq, Repr

/-- The fixed well-known-port table
(`ProtocolAnalyzer::initialize_well_known_ports`,
src/analysis/protocols.rs:47-74), as a lookup function. -/
def wellKnownPorts : Nat → Option ProtocolType
  | 80 => some .http
  | 8080 => some .http
  | 443 => some .https
  | 8443 => some .https
  | 22 => some .ssh
  | 53 => some .dns
  | 21 => some .ftp
  | 20 => some .ftp
  | 25 => some .smtp
  | 587 => some .smtp
  | 110 => some .pop3
  | 995 => some .pop3
  | 143 => some .imap
  | 993 => some .imap
  | 23 => some .telnet
  | _ => none

/-- `ProtocolAnalyzer::is_protocol_encrypted` (src/analysis/protocols.rs:158-165). -/
def is_protocol_encrypted : ProtocolType → Bool
  | .https | .ssh | .pop3 | .imap => true
  | _ => false

/-- `ProtocolAnalyzer::get_default_port` (src/analysis/protocols.rs:167-182). -/
def get_default_port : ProtocolType → Option Nat
  | .http => some 80
  | .https => some 443
  | .ssh => some 22
  | .dns => some 53
  | .ftp => some 21
  | .smtp => some 25
  | .pop3 => some 110
  | .imap => some 143
  | .telnet => some 23
  | .tcp port => some port
  | .udp port => some port
  | _ => none

/-- `ProtocolAnalyzer` (src/analysis/protocols.rs:31-34); the well-known-port
table is static, so only the per-protocol statistics map is state. -/
structure ProtocolAnalyzer where
  protocol_stats : List (ProtocolType × ProtocolInfo)
deriving DecidableEq, Repr

/-- `ProtocolAnalyzer::new` (src/analysis/protocols.rs:37-45). -/
def ProtocolAnalyzer.new : ProtocolAnalyzer := ⟨[]⟩

/-- `ProtocolAnalyzer::identify_protocol` (src/analysis/protocols.rs:97-138):
destination-port table hit first, then source port, then a port-qualified
TCP/UDP tag, preferring the destination port. -/
def identify_protocol (p : PacketInfo) : ProtocolType :=
  match p.protocol with
  | .tcp =>
    match p.dst_port.bind wellKnownPorts with
    | some proto => proto
    | none =>
      match p.src_port.bind wellKnownPorts with
      | some proto => proto
      | none =>
        match p.dst_port.or p.src_port with
        | some port => .tcp port
        | none => .unknown
  | .udp =>
    match p.dst_port.bind wellKnownPorts with
    | some proto => proto
    | none =>
      match p.src_port.bind wellKnownPorts with
      | some proto => proto
      | none =>
        match p.dst_port.or p.src_port with
        | some port => .udp port
        | none => .unknown
  | .icmp => .icmp
  | .other => .unknown

/-- In-place update of the first entry with key `k`, appending `(k, f d)`
when `k` is absent — the association-list model of
`HashMap::entry(k).or_insert_with(|| d)` followed by field updates `f`. -/
def updateEntry {α : Type} [DecidableEq α] {β : Type} (k : α) (f : β → β) (d : β) :
    List (α × β) → List (α × β)
  | [] => [(k, f d)]
  | (k', v) :: rest =>
    if k' = k then (k', f v) :: rest else (k', v) :: updateEntry k f d rest

/-- First-match association-list lookup (`HashMap::get`). -/
def lookupEntry {α : Type} [DecidableEq α] {β : Type} (k : α) :
    List (α × β) → Option β
  | [] => none
  | (k', v) :: rest => if k' = k then some v else lookupEntry k rest

/-- `ProtocolAnalyzer::analyze_packet` (src/analysis/protocols.rs:76-95):
classify, then bump the protocol's packet and byte counters. -/
def analyze_packet (pa : ProtocolAnalyzer) (p : PacketInfo) :
    ProtocolType × ProtocolAnalyzer :=
  let protocol_type := identify_protocol p
  let fresh : ProtocolInfo :=
    { protocol_type := protocol_type
      is_encrypted := is_protocol_encrypted protocol_type
      default_port := get_default_port protocol_type
      packet_count := 0
      byte_count := 0 }
  let stats' := updateEntry protocol_type
    (fun info => { info with
      packet_count := info.packet_count + 1
      byte_count := info.byte_count + p.length })
    fresh pa.protocol_stats
  (protocol_type, ⟨stats'⟩)

/-- `TcpState` (src/capture/proc_parser.rs:15-28). -/
inductive TcpState where
  | established | synSent | synRecv | finWait1 | finWait2 | timeWait
  | close | closeWait | lastAck | listen | closing
  | unknownState (raw : Nat)
deriving DecidableEq, Repr

/-- `TcpConnection` (src/capture/proc_parser.rs:6-12). -/
structure TcpConnection where
  local_addr : SockAddr
  remote_addr : SockAddr
  state : TcpState
  inode : Nat
  uid : Nat
deriving DecidableEq, Repr

/-- `ConnectionState` (src/analysis/connections.rs:7-14). -/
inductive ConnState where
  | establishing | established | closing | closed | unknownConn
deriving DecidableEq, Repr

/-- `ConnectionTracker::convert_tcp_state` (src/analysis/connections.rs:166-176). -/
def convert_tcp_state : TcpState → ConnState
  | .established => .established
  | .synSent | .synRecv => .establishing
  | .finWait1 | .finWait2 | .timeWait | .closeWait | .lastAck | .closing => .closing
  | .close => .closed
  | .listen => .established
  | .unknownState _ => .unknownConn

/-- `ConnectionInfo` (src/analysis/connections.rs:16-30); the process id and
name are never populated by the core and are omitted. -/
structure ConnectionInfo where
  local_addr : SockAddr
  remote_addr : SockAddr
  protocol : ProtocolType
  state : ConnState
  established_time : ℚ
  last_seen : ℚ
  bytes_sent : Nat
  bytes_received : Nat
  packets_sent : Nat
  packets_received : Nat
deriving DecidableEq, Repr

/-- `ConnectionTracker` (src/analysis/connections.rs:32-37). -/
structure ConnectionTracker where
  active_connections : List (PairKey × ConnectionInfo)
  protocol_analyzer : ProtocolAnalyzer
  connection_timeout : ℚ
  max_connections : Nat
deriving DecidableEq, Repr

/-- `ConnectionTracker::new` (src/analysis/connections.rs:40-47). -/
def ConnectionTracker.new : ConnectionTracker :=
  { active_connections := []
    protocol_analyzer := ProtocolAnalyzer.new
    connection_timeout := 300
    max_connections := 1000 }

/-- `SystemTime::duration_since`: `Ok(a - b)` when `b ≤ a`, `Err` otherwise. -/
def duration_since (a b : ℚ) : Option ℚ :=
  if b ≤ a then some (a - b) else none

/-- Stable insertion sort by a rational-valued key, ascending — the model of
`Vec::sort_by_key` (a stable sort). -/
def insertSorted {α : Type} (key : α → ℚ) (x : α) : List α → List α
  | [] => [x]
  | y :: ys => if key y ≤ key x then y :: insertSorted key x ys else x :: y :: ys

def sortByKeyQ {α : Type} (key : α → ℚ) : List α → List α
  | [] => []
  | x :: xs => insertSorted key x (sortByKeyQ key xs)

/-- `ConnectionTracker::cleanup_old_connections`
(src/analysis/connections.rs:178-204): drop timed-out entries, then, if the
map still exceeds the cap, drop the surplus entries with the smallest
`last_seen`. -/
def connAlive (timeout now : ℚ) (kv : PairKey × ConnectionInfo) : Bool :=
  match duration_since now kv.2.last_seen with
  | some d => decide (d < timeout)
  | none => true

def cleanup_old_connections (t : ConnectionTracker) (now : ℚ) : ConnectionTracker :=
  let m1 := t.active_connections.filter (connAlive t.connection_timeout now)
  if t.max_connections < m1.length then
    let sorted := sortByKeyQ (fun kv => kv.2.last_seen) m1
    let keys_to_remove := (sorted.take (m1.length - t.max_connections)).map Prod.fst
    { t with active_connections :=
        m1.filter fun kv => ¬ (keys_to_remove.contains kv.1) }
  else
    { t with active_connections := m1 }

/-- The fresh `ConnectionInfo` built by `update_from_proc`'s
`or_insert_with` closure (src/analysis/connections.rs:75-90). -/
def freshProcConn (c : TcpConnection) (protocol : ProtocolType) (now : ℚ) :
    ConnectionInfo :=
  { local_addr := c.local_addr
    remote_addr := c.remote_addr
    protocol := protocol
    state := convert_tcp_state c.state
    established_time := now
    last_seen := now
    bytes_sent := 0
    bytes_received := 0
    packets_sent := 0
    packets_received := 0 }

/-- `ip.to_string()`: the `Display` form of an address is always a
well-formed literal of its own family. -/
def ipStrOfAddr : IpAddrM → IpStr
  | .v4 a b c d => .v4str a b c d
  | .v6 s0 s1 s2 s3 s4 s5 s6 s7 => .v6str s0 s1 s2 s3 s4 s5 s6 s7

/-- `ConnectionTracker::identify_protocol_from_connection`
(src/analysis/connections.rs:151-164): classify a dummy TCP packet built
from the connection's endpoints (length 0). -/
def identify_protocol_from_connection (pa : ProtocolAnalyzer) (c : TcpConnection)
    (now : ℚ) : ProtocolType × ProtocolAnalyzer :=
  analyze_packet pa
    { timestamp := now
      length := 0
      protocol := .tcp
      src_ip := some (ipStrOfAddr c.local_addr.ip)
      dst_ip := some (ipStrOfAddr c.remote_addr.ip)
      src_port := some c.local_addr.port
      dst_port := some c.remote_addr.port }

/-- `ConnectionTracker::update_from_proc` (src/analysis/connections.rs:59-100):
retain only keys present in the snapshot, upsert every snapshot entry
(refreshing state, `last_seen` and protocol), then run eviction. -/
def procStep (now : ℚ)
    (st : List (PairKey × ConnectionInfo) × ProtocolAnalyzer)
    (c : TcpConnection) :
    List (PairKey × ConnectionInfo) × ProtocolAnalyzer :=
  let pr := identify_protocol_from_connection st.2 c now
  (updateEntry (connection_key c.local_addr c.remote_addr)
    (fun ci => { ci with
      state := convert_tcp_state c.state
      last_seen := now
      protocol := pr.1 })
    (freshProcConn c pr.1 now) st.1, pr.2)

def update_from_proc (t : ConnectionTracker) (tcp_connections : List TcpConnection)
    (now : ℚ) : ConnectionTracker :=
  let proc_keys := tcp_connections.map fun c =>
    connection_key c.local_addr c.remote_addr
  let retained := t.active_connections.filter fun kv => proc_keys.contains kv.1
  let folded := tcp_connections.foldl (procStep now)
    (retained, t.protocol_analyzer)
  cleanup_old_connections
    { t with active_connections := folded.1, protocol_analyzer := folded.2 } now

/-- The guard of `ConnectionTracker::track_packet`
(src/analysis/connections.rs:104-111): all four endpoint fields present and
both `"ip:port"` strings parsing as socket addresses. -/
def trackParse (p : PacketInfo) : Option (SockAddr × SockAddr) :=
  match p.src_ip, p.dst_ip, p.src_port, p.dst_port with
  | some si, some di, some sp, some dp =>
    match parseSockAddrStr si sp, parseSockAddrStr di dp with
    | some src_addr, some dst_addr => some (src_addr, dst_addr)
    | _, _ => none
  | _, _, _, _ => none

/-- `ConnectionTracker::track_packet` (src/analysis/connections.rs:103-140). -/
def track_packet (t : ConnectionTracker) (p : PacketInfo) (now : ℚ) :
    ConnectionTracker :=
  match trackParse p with
  | none => t
  | some (src_addr, dst_addr) =>
    let k := connection_key src_addr dst_addr
    let pr := analyze_packet t.protocol_analyzer p
    let fresh : ConnectionInfo :=
      { local_addr := src_addr
        remote_addr := dst_addr
        protocol := pr.1
        state := .established
        established_time := now
        last_seen := now
        bytes_sent := 0
        bytes_received := 0
        packets_sent := 0
        packets_received := 0 }
    let m' := updateEntry k
      (fun ci => { ci with
        packets_sent := ci.packets_sent + 1
        bytes_sent := ci.bytes_sent + p.length
        last_seen := now
        protocol := pr.1 })
      fresh t.active_connections
    { t with active_connections := m', protocol_analyzer := pr.2 }

/-- A packet with source and destination endpoints exchanged. -/
def swapPacket (p : PacketInfo) : PacketInfo :=
  { p with
    src_ip := p.dst_ip
    dst_ip := p.src_ip
    src_port := p.dst_port
    dst_port := p.src_port }

theorem trackParse_swap (p : PacketInfo) (sa da : SockAddr)
    (h : trackParse p = some (sa, da)) :
    trackParse (swapPacket p) = some (da, sa) := by
  unfold trackParse at h ⊢
  cases hsi : p.src_ip with
  | none => simp [hsi] at h
  | some si =>
    cases hdi : p.dst_ip with
    | none => simp [hsi, hdi] at h
    | some di =>
      cases hsp : p.src_port with
      | none => simp [hsi, hdi, hsp] at h
      | some sp =>
        cases hdp : p.dst_port with
        | none => simp [hsi, hdi, hsp, hdp] at h
        | some dp =>
          simp only [hsi, hdi, hsp, hdp] at h
          simp only [swapPacket, hsi, hdi, hsp, hdp]
          cases hps : parseSockAddrStr si sp with
          | none => simp [hps] at h
          | some a =>
            cases hpd : parseSockAddrStr di dp with
            | none => simp [hps, hpd] at h
            | some b =>
              simp only [hps, hpd] at h
              injection h with h2
              injection h2 with h3 h4
              subst h3
              subst h4
              simp [hps, hpd]

/-- C10: when any endpoint field is missing, or an assembled `"ip:port"`
string fails to parse as a socket address, `track_packet` leaves the
connection tracker entirely unchanged. -/
theorem track_packet_unparseable_frame (t : ConnectionTracker) (p : PacketInfo)
    (now : ℚ)
    (h : p.src_ip = none ∨ p.dst_ip = none ∨ p.src_port = none ∨
      p.dst_port = none ∨
      (∃ si sp, p.src_ip = some si ∧ p.src_port = some sp ∧
        parseSockAddrStr si sp = none) ∨
      (∃ di dp, p.dst_ip = some di ∧ p.dst_port = some dp ∧
        parseSockAddrStr di dp = none)) :
    track_packet t p now = t := by
  have hnone : trackParse p = none := by
    unfold trackParse
    cases hsi : p.src_ip with
    | none => rfl
    | some si =>
      cases hdi : p.dst_ip with
      | none => rfl
      | some di =>
        cases hsp : p.src_port with
        | none => rfl
        | some sp =>
          cases hdp : p.dst_port with
          | none => rfl
          | some dp =>
            rcases h with h | h | h | h | ⟨si', sp', h1, h2, h3⟩ |
                ⟨di', dp', h1, h2, h3⟩
            · rw [hsi] at h; cases h
            · rw [hdi] at h; cases h
            · rw [hsp] at h; cases h
            · rw [hdp] at h; cases h
            · rw [hsi] at h1
              injection h1 with e1
              subst e1
              rw [hsp] at h2
              injection h2 with e2
              subst e2
              simp [h3]
            · rw [hdi] at h1
              injection h1 with e1
              subst e1
              rw [hdp] at h2
              injection h2 with e2
              subst e2
              cases hps : parseSockAddrStr si sp <;> simp [h3, hps]
  simp [track_packet, hnone]

/-- Concrete input for the C10 witness: the source-IP field is absent. -/
def c10Packet : PacketInfo :=
  { timestamp := 0
    length := 10
    protocol := .tcp
    src_ip := none
    dst_ip := some (.v4str 10 0 0 1)
    src_port := some 1
    dst_port := some 2 }

theorem track_packet_unparseable_frame_witness :
    c10Packet.src_ip = none ∧
      track_packet ConnectionTracker.new c10Packet 5 = ConnectionTracker.new :=
  ⟨rfl, track_packet_unparseable_frame ConnectionTracker.new c10Packet 5
    (Or.inl rfl)⟩

/-- C3: the pair key is direction-agnostic in both the connection tracker
and the flow inspector, and therefore tracking a packet followed by the same
packet with source and destination swapped leaves exactly one entry in the
tracker's map. -/
theorem pair_key_direction_agnostic :
    (∀ a b, connection_key a b = connection_key b a) ∧
    (∀ a b, generate_flow_id a b = generate_flow_id b a) ∧
    (∀ (t : ConnectionTracker) (p : PacketInfo) (now now' : ℚ)
      (sa da : SockAddr),
      trackParse p = some (sa, da) → t.active_connections = [] →
      ((track_packet (track_packet t p now) (swapPacket p)
        now').active_connections.length = 1)) := by
  refine ⟨connection_key_comm, generate_flow_id_comm, ?_⟩
  intro t p now now' sa da hp hempty
  have hswap := trackParse_swap p sa da hp
  simp only [track_packet, hp, hswap, hempty]
  simp [updateEntry, connection_key_comm sa da]

/-- Concrete packet from the spec's scenario 2:
`(192.168.1.1:12345, 10.0.0.1:80)`. -/
def c3Packet : PacketInfo :=
  { timestamp := 0
    length := 100
    protocol := .tcp
    src_ip := some (.v4str 192 168 1 1)
    dst_ip := some (.v4str 10 0 0 1)
    src_port := some 12345
    dst_port := some 80 }

theorem pair_key_direction_agnostic_witness :
    trackParse c3Packet =
      some (⟨.v4 192 168 1 1, 12345⟩, ⟨.v4 10 0 0 1, 80⟩) ∧
    ConnectionTracker.new.active_connections = [] ∧
    (track_packet (track_packet ConnectionTracker.new c3Packet 0)
      (swapPacket c3Packet) 1).active_connections.length = 1 :=
  ⟨rfl, rfl, pair_key_direction_agnostic.2.2 ConnectionTracker.new c3Packet 0 1
    ⟨.v4 192 168 1 1, 12345⟩ ⟨.v4 10 0 0 1, 80⟩ rfl rfl⟩

/-- `InterfaceMetrics` (src/analysis/statistics.rs:6-20), minus the
display-only interface name. -/
structure InterfaceMetrics where
  rx_bytes : Nat
  tx_bytes : Nat
  rx_packets : Nat
  tx_packets : Nat
  rx_errors : Nat
  tx_errors : Nat
  rx_dropped : Nat
  tx_dropped : Nat
  rx_rate_bps : ℚ
  tx_rate_bps : ℚ
  last_update : ℚ
deriving DecidableEq, Repr

/-- `StatisticsCollector` (src/analysis/statistics.rs:36-45).  The
per-interface baseline map (`previous_stats`) feeds only
`update_interface_stats`, which no claim touches, and is omitted. -/
structure StatisticsCollector where
  start_time : ℚ
  last_update : ℚ
  total_packets : Nat
  total_bytes : Nat
  packet_history : List (ℚ × Nat)
  byte_history : List (ℚ × Nat)
  history_window : ℚ
deriving DecidableEq, Repr

/-- `StatisticsCollector::new` (src/analysis/statistics.rs:48-59), at
construction instant `t0`. -/
def StatisticsCollector.new (t0 : ℚ) : StatisticsCollector :=
  { start_time := t0
    last_update := t0
    total_packets := 0
    total_bytes := 0
    packet_history := []
    byte_history := []
    history_window := 60 }

/-- `StatisticsCollector::cleanup_history` (src/analysis/statistics.rs:117-122). -/
def cleanup_history (s : StatisticsCollector) (now : ℚ) : StatisticsCollector :=
  let cutoff := now - s.history_window
  { s with
    packet_history := s.packet_history.filter fun e => decide (cutoff < e.1)
    byte_history := s.byte_history.filter fun e => decide (cutoff < e.1) }

/-- `StatisticsCollector::update_packet_stats` (src/analysis/statistics.rs:103-115):
set the running totals, append to both histories, purge old entries. -/
def update_packet_stats (s : StatisticsCollector) (packets bytes : Nat)
    (now : ℚ) : StatisticsCollector :=
  cleanup_history
    { s with
      total_packets := packets
      total_bytes := bytes
      packet_history := s.packet_history ++ [(now, packets)]
      byte_history := s.byte_history ++ [(now, bytes)] }
    now

/-- `StatisticsCollector::calculate_rates` (src/analysis/statistics.rs:124-144):
first sample at or after `now - 10` (defaulting to 0), saturating
subtraction from the running total, divided by the fixed 10-second window. -/
def calculate_rates (s : StatisticsCollector) (now : ℚ) : ℚ × ℚ :=
  let window_start := now - 10
  let packets_start :=
    ((s.packet_history.find? fun e => decide (window_start ≤ e.1)).map
      Prod.snd).getD 0
  let bytes_start :=
    ((s.byte_history.find? fun e => decide (window_start ≤ e.1)).map
      Prod.snd).getD 0
  (((s.total_packets - packets_start : Nat) : ℚ) / 10,
   ((s.total_bytes - bytes_start : Nat) : ℚ) / 10)

/-- `StatisticsCollector::get_bandwidth_utilization`
(src/analysis/statistics.rs:176-184); `&self` is unused in the source. -/
def get_bandwidth_utilization (interface_metrics : InterfaceMetrics)
    (interface_speed_mbps : Option Nat) : Option ℚ :=
  match interface_speed_mbps with
  | some speed_mbps =>
    let speed_bps : ℚ := ((speed_mbps * 1000000 : Nat) : ℚ)
    let total_rate := interface_metrics.rx_rate_bps + interface_metrics.tx_rate_bps
    some (total_rate / speed_bps * 100)
  | none => none

/-- Metrics whose rates consume twice a 1 Mbps link. -/
def c5Metrics : InterfaceMetrics :=
  { rx_bytes := 0, tx_bytes := 0, rx_packets := 0, tx_packets := 0
    rx_errors := 0, tx_errors := 0, rx_dropped := 0, tx_dropped := 0
    rx_rate_bps := 2000000, tx_rate_bps := 0, last_update := 0 }

/-- C5 counterexample: the helper performs no clamping — at 2 MB/s on a
1 Mbps link it returns 200 %, exceeding the claimed bound of 100. -/
theorem get_bandwidth_utilization_not_clamped :
    get_bandwidth_utilization c5Metrics (some 1) = some 200 ∧
      ¬ ((200 : ℚ) ≤ 100) := by
  constructor
  · norm_num [get_bandwidth_utilization, c5Metrics]
  · norm_num

/-- C5 (amended): for a positive link speed the helper returns the raw,
unclamped percentage `(rx_rate + tx_rate) / (speed × 10⁶) × 100`; with no
speed it returns nothing. -/
theorem get_bandwidth_utilization_formula (m : InterfaceMetrics) (speed : Nat)
    (_hs : 0 < speed) :
    get_bandwidth_utilization m (some speed) =
      some ((m.rx_rate_bps + m.tx_rate_bps) / ((speed : ℚ) * 1000000) * 100) ∧
    get_bandwidth_utilization m none = none := by
  constructor
  · simp only [get_bandwidth_utilization]
    push_cast
    ring_nf
  · rfl

theorem get_bandwidth_utilization_formula_witness :
    0 < 1 ∧
      (get_bandwidth_utilization c5Metrics (some 1) =
        some ((c5Metrics.rx_rate_bps + c5Metrics.tx_rate_bps) /
          ((1 : ℚ) * 1000000) * 100) ∧
      get_bandwidth_utilization c5Metrics none = none) :=
  ⟨by decide, get_bandwidth_utilization_formula c5Metrics 1 (by decide)⟩

theorem find_earliest_in_window {l : List (ℚ × Nat)} {w : ℚ}
    (hs : l.Pairwise fun a b => a.1 ≤ b.1)
    (hex : ∃ e ∈ l, w ≤ e.1) :
    ∃ e0, (l.find? fun e => decide (w ≤ e.1)) = some e0 ∧ e0 ∈ l ∧ w ≤ e0.1 ∧
      ∀ e' ∈ l, w ≤ e'.1 → e0.1 ≤ e'.1 := by
  induction l with
  | nil => simp at hex
  | cons x xs ih =>
    rw [List.pairwise_cons] at hs
    by_cases hx : w ≤ x.1
    · refine ⟨x, ?_, List.mem_cons_self x xs, hx, ?_⟩
      · simp [List.find?, hx]
      · intro e' he' _
        rcases List.mem_cons.mp he' with rfl | hmem
        · exact le_refl _
        · exact hs.1 e' hmem
    · have hex' : ∃ e ∈ xs, w ≤ e.1 := by
        obtain ⟨e, he, hwe⟩ := hex
        rcases List.mem_cons.mp he with rfl | hmem
        · exact absurd hwe hx
        · exact ⟨e, hmem, hwe⟩
      obtain ⟨e0, hf, hm, hw0, hmin⟩ := ih hs.2 hex'
      refine ⟨e0, ?_, List.mem_cons_of_mem x hm, hw0, ?_⟩
      · simp [List.find?, hx, hf]
      · intro e' he' hw'
        rcases List.mem_cons.mp he' with rfl | hmem
        · exact absurd hw' hx
        · exact hmin e' hmem hw'

/-- C6: `calculate_rates` returns
`((total_packets − earliest in-window packet sample) / 10,
  (total_bytes − earliest in-window byte sample) / 10)`
(over the last 10 seconds, with chronological histories), and when no
history samples exist both rates are zero (empty histories imply zero
totals — an invariant of the collector, proved below). -/
theorem calculate_rates_spec (s : StatisticsCollector) (now : ℚ)
    (hsp : s.packet_history.Pairwise fun a b => a.1 ≤ b.1)
    (hsb : s.byte_history.Pairwise fun a b => a.1 ≤ b.1)
    (hep : s.packet_history = [] → s.total_packets = 0)
    (heb : s.byte_history = [] → s.total_bytes = 0) :
    ((∃ e ∈ s.packet_history, now - 10 ≤ e.1) →
      ∃ e0 ∈ s.packet_history, now - 10 ≤ e0.1 ∧
        (∀ e' ∈ s.packet_history, now - 10 ≤ e'.1 → e0.1 ≤ e'.1) ∧
        (calculate_rates s now).1 = ((s.total_packets - e0.2 : Nat) : ℚ) / 10) ∧
    ((∃ e ∈ s.byte_history, now - 10 ≤ e.1) →
      ∃ e0 ∈ s.byte_history, now - 10 ≤ e0.1 ∧
        (∀ e' ∈ s.byte_history, now - 10 ≤ e'.1 → e0.1 ≤ e'.1) ∧
        (calculate_rates s now).2 = ((s.total_bytes - e0.2 : Nat) : ℚ) / 10) ∧
    (s.packet_history = [] ∧ s.byte_history = [] →
      calculate_rates s now = (0, 0)) := by
  refine ⟨?_, ?_, ?_⟩
  · intro hex
    obtain ⟨e0, hf, hm, hw0, hmin⟩ := find_earliest_in_window hsp hex
    refine ⟨e0, hm, hw0, hmin, ?_⟩
    simp only [calculate_rates]
    rw [hf]
    simp
  · intro hex
    obtain ⟨e0, hf, hm, hw0, hmin⟩ := find_earliest_in_window hsb hex
    refine ⟨e0, hm, hw0, hmin, ?_⟩
    simp only [calculate_rates]
    rw [hf]
    simp
  · rintro ⟨hp, hb⟩
    simp [calculate_rates, hp, hb, hep hp, heb hb]

/-- Concrete collector state for the C6 witness. -/
def c6Collector : StatisticsCollector :=
  { start_time := 0
    last_update := 8
    total_packets := 50
    total_bytes := 500
    packet_history := [(5, 10), (8, 30)]
    byte_history := [(5, 100), (8, 300)]
    history_window := 60 }

theorem calculate_rates_spec_witness :
    c6Collector.packet_history.Pairwise (fun a b => a.1 ≤ b.1) ∧
    c6Collector.byte_history.Pairwise (fun a b => a.1 ≤ b.1) ∧
    (c6Collector.packet_history = [] → c6Collector.total_packets = 0) ∧
    (c6Collector.byte_history = [] → c6Collector.total_bytes = 0) ∧
    (((∃ e ∈ c6Collector.packet_history, (12 : ℚ) - 10 ≤ e.1) →
      ∃ e0 ∈ c6Collector.packet_history, (12 : ℚ) - 10 ≤ e0.1 ∧
        (∀ e' ∈ c6Collector.packet_history, (12 : ℚ) - 10 ≤ e'.1 → e0.1 ≤ e'.1) ∧
        (calculate_rates c6Collector 12).1 =
          ((c6Collector.total_packets - e0.2 : Nat) : ℚ) / 10) ∧
    ((∃ e ∈ c6Collector.byte_history, (12 : ℚ) - 10 ≤ e.1) →
      ∃ e0 ∈ c6Collector.byte_history, (12 : ℚ) - 10 ≤ e0.1 ∧
        (∀ e' ∈ c6Collector.byte_history, (12 : ℚ) - 10 ≤ e'.1 → e0.1 ≤ e'.1) ∧
        (calculate_rates c6Collector 12).2 =
          ((c6Collector.total_bytes - e0.2 : Nat) : ℚ) / 10) ∧
    (c6Collector.packet_history = [] ∧ c6Collector.byte_history = [] →
      calculate_rates c6Collector 12 = (0, 0))) :=
  ⟨by decide, by decide, by simp [c6Collector], by simp [c6Collector],
    calculate_rates_spec c6Collector 12 (by decide) (by decide)
      (by simp [c6Collector]) (by simp [c6Collector])⟩

/-- The collector invariant behind C6's "no samples ⇒ zero rates" clause:
histories are chronological, bounded by the wall clock, and empty histories
imply zero totals. -/
def StatsInv (s : StatisticsCollector) (c : ℚ) : Prop :=
  0 < s.history_window ∧
  s.packet_history.Pairwise (fun a b => a.1 ≤ b.1) ∧
  s.byte_history.Pairwise (fun a b => a.1 ≤ b.1) ∧
  (∀ e ∈ s.packet_history, e.1 ≤ c) ∧
  (∀ e ∈ s.byte_history, e.1 ≤ c) ∧
  (s.packet_history = [] → s.total_packets = 0) ∧
  (s.byte_history = [] → s.total_bytes = 0)

theorem statsInv_new (t0 : ℚ) : StatsInv (StatisticsCollector.new t0) t0 := by
  refine ⟨by norm_num [StatisticsCollector.new], ?_, ?_, ?_, ?_, ?_, ?_⟩ <;>
    simp [StatisticsCollector.new]

theorem statsInv_update (s : StatisticsCollector) (c now : ℚ)
    (packets bytes : Nat) (hinv : StatsInv s c) (hc : c ≤ now) :
    StatsInv (update_packet_stats s packets bytes now) now := by
  obtain ⟨hwin, h1, h2, h3, h4, _, _⟩ := hinv
  refine ⟨hwin, ?_, ?_, ?_, ?_, ?_, ?_⟩
  · simp only [update_packet_stats, cleanup_history]
    apply List.Pairwise.filter
    apply List.pairwise_append.mpr
    refine ⟨h1, by simp, ?_⟩
    intro e he e' he'
    simp only [List.mem_singleton] at he'
    subst he'
    exact le_trans (h3 e he) hc
  · simp only [update_packet_stats, cleanup_history]
    apply List.Pairwise.filter
    apply List.pairwise_append.mpr
    refine ⟨h2, by simp, ?_⟩
    intro e he e' he'
    simp only [List.mem_singleton] at he'
    subst he'
    exact le_trans (h4 e he) hc
  · intro e he
    simp only [update_packet_stats, cleanup_history, List.mem_filter,
      List.mem_append, List.mem_singleton] at he
    rcases he.1 with hm | hm
    · exact le_trans (h3 e hm) hc
    · subst hm; exact le_refl _
  · intro e he
    simp only [update_packet_stats, cleanup_history, List.mem_filter,
      List.mem_append, List.mem_singleton] at he
    rcases he.1 with hm | hm
    · exact le_trans (h4 e hm) hc
    · subst hm; exact le_refl _
  · intro hemp
    exfalso
    have hmem : ((now, packets) : ℚ × Nat) ∈
        (update_packet_stats s packets bytes now).packet_history := by
      simp only [update_packet_stats, cleanup_history, List.mem_filter,
        List.mem_append, List.mem_singleton]
      refine ⟨Or.inr trivial, ?_⟩
      simp only [decide_eq_true_eq]
      linarith
    rw [hemp] at hmem
    simp at hmem
  · intro hemp
    exfalso
    have hmem : ((now, bytes) : ℚ × Nat) ∈
        (update_packet_stats s packets bytes now).byte_history := by
      simp only [update_packet_stats, cleanup_history, List.mem_filter,
        List.mem_append, List.mem_singleton]
      refine ⟨Or.inr trivial, ?_⟩
      simp only [decide_eq_true_eq]
      linarith
    rw [hemp] at hmem
    simp at hmem

/-- `RuleAction` (src/firewall/rules.rs:5-11). -/
inductive RuleAction where
  | allow | block | log | logAndBlock
deriving DecidableEq, Repr

/-- `RuleDirection` (src/firewall/rules.rs:13-18). -/
inductive RuleDirection where
  | inbound | outbound | bidirectional
deriving DecidableEq, Repr

/-- `RuleProtocol` (src/firewall/rules.rs:20-26). -/
inductive RuleProtocol where
  | tcp | udp | icmp | anyProto
deriving DecidableEq, Repr

/-- `FirewallRule` (src/firewall/rules.rs:28-45), minus the display-only
name and description; `HashSet` becomes a list queried by membership. -/
structure FirewallRule where
  id : Nat
  enabled : Bool
  action : RuleAction
  direction : RuleDirection
  protocol : RuleProtocol
  source_ips : Option (List IpAddrM)
  destination_ips : Option (List IpAddrM)
  source_ports : Option (List Nat)
  destination_ports : Option (List Nat)
  priority : Nat
  created_at : ℚ
  last_matched : Option ℚ
  match_count : Nat
deriving DecidableEq, Repr

/-- `FirewallRule::matches_packet` (src/firewall/rules.rs:136-190): enabled,
protocol `Any` or equal, direction `Bidirectional` or equal, and every
present address/port set containing the packet's corresponding field. -/
def matches_packet (r : FirewallRule) (src_ip dst_ip : IpAddrM)
    (src_port dst_port : Nat) (protocol : RuleProtocol)
    (direction : RuleDirection) : Bool :=
  r.enabled &&
  (r.protocol == .anyProto || r.protocol == protocol) &&
  (r.direction == .bidirectional || r.direction == direction) &&
  (match r.source_ips with
   | some allowed => allowed.contains src_ip
   | none => true) &&
  (match r.destination_ips with
   | some allowed => allowed.contains dst_ip
   | none => true) &&
  (match r.source_ports with
   | some allowed => allowed.contains src_port
   | none => true) &&
  (match r.destination_ports with
   | some allowed => allowed.contains dst_port
   | none => true)

/-- `FirewallStats` (src/firewall/engine.rs:7-17). -/
structure FirewallStats where
  total_packets_processed : Nat
  packets_allowed : Nat
  packets_blocked : Nat
  packets_logged : Nat
  rules_matched : Nat
  active_rules : Nat
  enabled_rules : Nat
  last_reset : ℚ
deriving DecidableEq, Repr

/-- `FirewallStats::new` (src/firewall/engine.rs:20-31) at instant `now`. -/
def FirewallStats.new (now : ℚ) : FirewallStats :=
  { total_packets_processed := 0
    packets_allowed := 0
    packets_blocked := 0
    packets_logged := 0
    rules_matched := 0
    active_rules := 0
    enabled_rules := 0
    last_reset := now }

/-- `FirewallEvent` (src/firewall/engine.rs:54-67), minus the display-only
rule name. -/
structure FirewallEvent where
  timestamp : ℚ
  rule_id : Nat
  action : RuleAction
  src_ip : IpAddrM
  dst_ip : IpAddrM
  src_port : Nat
  dst_port : Nat
  protocol : RuleProtocol
  direction : RuleDirection
  packet_size : Nat
deriving DecidableEq, Repr

/-- `VecDeque::push_back` followed by the sources' overflow check
`if len > max { pop_front }`. -/
def ringPush {α : Type} (l : List α) (x : α) (maxLen : Nat) : List α :=
  let pushed := l ++ [x]
  if maxLen < pushed.length then pushed.tail else pushed

/-- `FirewallEngine` (src/firewall/engine.rs:97-104). -/
structure FirewallEngine where
  rules : List FirewallRule
  stats : FirewallStats
  recent_events : List FirewallEvent
  max_events : Nat
  rule_counter : Nat
  enabled : Bool
deriving DecidableEq, Repr

/-- `FirewallEngine::new` (src/firewall/engine.rs:107-116) at instant `now`. -/
def FirewallEngine.new (now : ℚ) : FirewallEngine :=
  { rules := []
    stats := FirewallStats.new now
    recent_events := []
    max_events := 1000
    rule_counter := 0
    enabled := true }

/-- `Ipv4Addr::is_private` for the four octets. -/
def ipv4_is_private (a b : Nat) : Bool :=
  (a == 10) || (a == 172 && (16 ≤ b && b ≤ 31)) || (a == 192 && b == 168)

/-- `FirewallEngine::is_local_ip` (src/firewall/engine.rs:289-302):
loopback, RFC 1918, IPv4 link-local; IPv6 loopback, unique-local,
link-local. -/
def is_local_ip : IpAddrM → Bool
  | .v4 a b _ _ => (a == 127) || ipv4_is_private a b || (a == 169 && b == 254)
  | .v6 s0 s1 s2 s3 s4 s5 s6 s7 =>
    (s0 == 0 && s1 == 0 && s2 == 0 && s3 == 0 && s4 == 0 && s5 == 0 &&
      s6 == 0 && s7 == 1) ||
    ((s0 &&& 0xfe00) == 0xfc00) ||
    ((s0 &&& 0xffc0) == 0xfe80)

/-- The `match packet.protocol.as_str()` in `process_packet`
(src/firewall/engine.rs:220-225): unrecognized tags map to `Any`. -/
def ruleProtocolOfTag : ProtoTag → RuleProtocol
  | .tcp => .tcp
  | .udp => .udp
  | .icmp => .icmp
  | .other => .anyProto

/-- The rule-iteration loop of `FirewallEngine::process_packet`
(src/firewall/engine.rs:234-287): on a match, record it, push an event into
the bounded ring, and return the rule's action — except for `Log`, which
counts the packet as logged and continues with the remaining rules; when no
rule decides, allow. -/
def processRules (src_ip dst_ip : IpAddrM) (src_port dst_port : Nat)
    (protocol : RuleProtocol) (direction : RuleDirection) (pkt_len : Nat)
    (now : ℚ) (maxEvents : Nat) :
    List FirewallRule → FirewallStats → List FirewallEvent →
      RuleAction × List FirewallRule × FirewallStats × List FirewallEvent
  | [], st, ev =>
    (.allow, [], { st with packets_allowed := st.packets_allowed + 1 }, ev)
  | r :: rs, st, ev =>
    if matches_packet r src_ip dst_ip src_port dst_port protocol direction then
      let r' := { r with
        last_matched := some now
        match_count := r.match_count + 1 }
      let st1 := { st with rules_matched := st.rules_matched + 1 }
      let event : FirewallEvent :=
        { timestamp := now
          rule_id := r.id
          action := r.action
          src_ip := src_ip
          dst_ip := dst_ip
          src_port := src_port
          dst_port := dst_port
          protocol := protocol
          direction := direction
          packet_size := pkt_len }
      let ev1 := ringPush ev event maxEvents
      match r.action with
      | .allow =>
        (.allow, r' :: rs,
          { st1 with packets_allowed := st1.packets_allowed + 1 }, ev1)
      | .block =>
        (.block, r' :: rs,
          { st1 with packets_blocked := st1.packets_blocked + 1 }, ev1)
      | .logAndBlock =>
        (.logAndBlock, r' :: rs,
          { st1 with
            packets_logged := st1.packets_logged + 1
            packets_blocked := st1.packets_blocked + 1 }, ev1)
      | .log =>
        let rest := processRules src_ip dst_ip src_port dst_port protocol
          direction pkt_len now maxEvents rs
          { st1 with packets_logged := st1.packets_logged + 1 } ev1
        (rest.1, r' :: rest.2.1, rest.2.2)
    else
      let rest := processRules src_ip dst_ip src_port dst_port protocol
        direction pkt_len now maxEvents rs st ev
      (rest.1, r :: rest.2.1, rest.2.2)

/-- `FirewallEngine::process_packet` (src/firewall/engine.rs:199-287):
disabled engines and unparseable IPs fail open to `Allow`; otherwise the
rule loop decides. -/
def process_packet (e : FirewallEngine) (packet : PacketInfo) (now : ℚ) :
    RuleAction × FirewallEngine :=
  if e.enabled = false then (.allow, e)
  else
    let st0 := { e.stats with
      total_packets_processed := e.stats.total_packets_processed + 1 }
    match packet.src_ip.bind parseIpAddr with
    | none => (.allow, { e with stats := st0 })
    | some src_ip =>
      match packet.dst_ip.bind parseIpAddr with
      | none => (.allow, { e with stats := st0 })
      | some dst_ip =>
        let src_port := packet.src_port.getD 0
        let dst_port := packet.dst_port.getD 0
        let protocol := ruleProtocolOfTag packet.protocol
        let direction := if is_local_ip src_ip then RuleDirection.outbound
          else RuleDirection.inbound
        let res := processRules src_ip dst_ip src_port dst_port protocol
          direction packet.length now e.max_events e.rules st0 e.recent_events
        (res.1, { e with
          rules := res.2.1
          stats := res.2.2.1
          recent_events := res.2.2.2 })

theorem processRules_action (src_ip dst_ip : IpAddrM) (src_port dst_port : Nat)
    (protocol : RuleProtocol) (direction : RuleDirection) (pkt_len : Nat)
    (now : ℚ) (maxEvents : Nat) :
    ∀ (rules : List FirewallRule) (st : FirewallStats)
      (ev : List FirewallEvent),
      (processRules src_ip dst_ip src_port dst_port protocol direction pkt_len
        now maxEvents rules st ev).1 =
        match rules.find? (fun r =>
          matches_packet r src_ip dst_ip src_port dst_port protocol direction
            && !(r.action == .log)) with
        | some r => r.action
        | none => .allow := by
  intro rules
  induction rules with
  | nil => intro st ev; rfl
  | cons r rs ih =>
    intro st ev
    cases hm : matches_packet r src_ip dst_ip src_port dst_port protocol
        direction with
    | false =>
      rw [List.find?_cons_of_neg _ (by simp [hm])]
      simp only [processRules, hm, Bool.false_eq_true, if_false]
      exact ih _ _
    | true =>
      cases ha : r.action with
      | log =>
        rw [List.find?_cons_of_neg _ (by simp [hm, ha])]
        simp only [processRules, hm, ha, if_true]
        exact ih _ _
      | allow =>
        rw [List.find?_cons_of_pos _ (by simp [hm, ha])]
        simp [processRules, hm, ha]
      | block =>
        rw [List.find?_cons_of_pos _ (by simp [hm, ha])]
        simp [processRules, hm, ha]
      | logAndBlock =>
        rw [List.find?_cons_of_pos _ (by simp [hm, ha])]
        simp [processRules, hm, ha]

/-- C1: for an enabled engine and a packet whose IPs parse, `process_packet`
returns the action of the first matching rule whose action is not `Log`
(matching `Log` rules never stop iteration; any other matching action is
returned immediately), and `Allow` when no such rule matches. -/
theorem process_packet_first_match (e : FirewallEngine) (p : PacketInfo)
    (now : ℚ) (src_ip dst_ip : IpAddrM)
    (hen : e.enabled = true)
    (hs : p.src_ip.bind parseIpAddr = some src_ip)
    (hd : p.dst_ip.bind parseIpAddr = some dst_ip) :
    (process_packet e p now).1 =
      match e.rules.find? (fun r =>
        matches_packet r src_ip dst_ip (p.src_port.getD 0) (p.dst_port.getD 0)
          (ruleProtocolOfTag p.protocol)
          (if is_local_ip src_ip then .outbound else .inbound)
          && !(r.action == .log)) with
      | some r => r.action
      | none => .allow := by
  simp only [process_packet, hen, hs, hd]
  simp only [Bool.true_eq_false, if_false]
  exact processRules_action _ _ _ _ _ _ _ _ _ _ _ _

/-- C9: a disabled engine allows every packet and its state — statistics,
rules (hence every `match_count` and `last_matched`), and the event ring —
is returned exactly unchanged. -/
theorem process_packet_disabled_frame (e : FirewallEngine) (p : PacketInfo)
    (now : ℚ) (h : e.enabled = false) :
    process_packet e p now = (.allow, e) := by
  simp [process_packet, h]

/-- A disabled engine with one rule and a nonempty event ring, for the C9
witness. -/
def c9Rule : FirewallRule :=
  { id := 1
    enabled := true
    action := .block
    direction := .bidirectional
    protocol := .anyProto
    source_ips := none
    destination_ips := none
    source_ports := none
    destination_ports := none
    priority := 128
    created_at := 0
    last_matched := none
    match_count := 7 }

def c9Engine : FirewallEngine :=
  { FirewallEngine.new 0 with enabled := false, rules := [c9Rule] }

def c9Packet : PacketInfo :=
  { timestamp := 3
    length := 64
    protocol := .tcp
    src_ip := some (.v4str 192 168 1 100)
    dst_ip := some (.v4str 192 168 1 1)
    src_port := some 12345
    dst_port := some 22 }

theorem process_packet_disabled_frame_witness :
    c9Engine.enabled = false ∧
      process_packet c9Engine c9Packet 3 = (.allow, c9Engine) :=
  ⟨rfl, process_packet_disabled_frame c9Engine c9Packet 3 rfl⟩

/-- An engine holding a matching `Log` rule ahead of a matching `Block`
rule, for the C1 witness. -/
def c1LogRule : FirewallRule :=
  { c9Rule with id := 1, action := .log, priority := 200 }

def c1BlockRule : FirewallRule :=
  { c9Rule with
    id := 2
    action := .block
    priority := 100
    destination_ports := some [22] }

def c1Engine : FirewallEngine :=
  { FirewallEngine.new 0 with rules := [c1LogRule, c1BlockRule] }

theorem process_packet_first_match_witness :
    c1Engine.enabled = true ∧
    c9Packet.src_ip.bind parseIpAddr = some (.v4 192 168 1 100) ∧
    c9Packet.dst_ip.bind parseIpAddr = some (.v4 192 168 1 1) ∧
    (process_packet c1Engine c9Packet 3).1 =
      match c1Engine.rules.find? (fun r =>
        matches_packet r (.v4 192 168 1 100) (.v4 192 168 1 1)
          (c9Packet.src_port.getD 0) (c9Packet.dst_port.getD 0)
          (ruleProtocolOfTag c9Packet.protocol)
          (if is_local_ip (.v4 192 168 1 100) then .outbound else .inbound)
          && !(r.action == .log)) with
      | some r => r.action
      | none => .allow :=
  ⟨rfl, rfl, rfl,
    process_packet_first_match c1Engine c9Packet 3 (.v4 192 168 1 100)
      (.v4 192 168 1 1) rfl rfl rfl⟩

/-- `FlowDirection` (src/traffic/inspector.rs:7-13). -/
inductive FlowDirection where
  | inbound | outbound | internal | unknownDir
deriving DecidableEq, Repr

/-- `TrafficFlow` (src/traffic/inspector.rs:15-29); the flow id is the pair
key itself. -/
structure TrafficFlow where
  flow_id : PairKey
  src_addr : SockAddr
  dst_addr : SockAddr
  protocol : ProtocolType
  direction : FlowDirection
  start_time : ℚ
  last_seen : ℚ
  packet_count : Nat
  byte_count : Nat
  packets_per_second : ℚ
  bytes_per_second : ℚ
  is_active : Bool
deriving DecidableEq, Repr

/-- `TrafficEventType` (src/traffic/inspector.rs:40-48). -/
inductive TrafficEventType where
  | flowStarted | flowEnded | highBandwidth | suspiciousActivity
  | protocolAnomaly | connectionSpike
deriving DecidableEq, Repr

/-- `EventSeverity` (src/traffic/inspector.rs:50-55). -/
inductive EventSeverity where
  | info | warning | critical
deriving DecidableEq, Repr

/-- `TrafficEvent` (src/traffic/inspector.rs:31-38), minus the display-only
description. -/
structure TrafficEvent where
  timestamp : ℚ
  event_type : TrafficEventType
  flow_id : PairKey
  severity : EventSeverity
deriving DecidableEq, Repr

/-- A CIDR network (`ipnetwork::IpNetwork`) as the numeric network address
and mask length of its family. -/
inductive IpNetwork where
  | v4net (net : Nat) (maskLen : Nat)
  | v6net (net : Nat) (maskLen : Nat)
deriving DecidableEq, Repr

/-- Numeric value of an IPv4 address from its octets. -/
def ipv4Val (a b c d : Nat) : Nat := ((a * 256 + b) * 256 + c) * 256 + d

/-- Numeric value of an IPv6 address from its segments. -/
def ipv6Val (s0 s1 s2 s3 s4 s5 s6 s7 : Nat) : Nat :=
  ((((((s0 * 65536 + s1) * 65536 + s2) * 65536 + s3) * 65536 + s4) * 65536 +
    s5) * 65536 + s6) * 65536 + s7

/-- `IpNetwork::contains`: same family and equal upper `maskLen` bits. -/
def ipNetworkContains : IpNetwork → IpAddrM → Bool
  | .v4net net p, .v4 a b c d =>
    (ipv4Val a b c d) >>> (32 - p) == net >>> (32 - p)
  | .v6net net p, .v6 s0 s1 s2 s3 s4 s5 s6 s7 =>
    (ipv6Val s0 s1 s2 s3 s4 s5 s6 s7) >>> (128 - p) == net >>> (128 - p)
  | _, _ => false

/-- `TrafficInspector` (src/traffic/inspector.rs:57-67). -/
structure TrafficInspector where
  active_flows : List (PairKey × TrafficFlow)
  flow_history : List TrafficFlow
  traffic_events : List TrafficEvent
  bandwidth_threshold : Nat
  packet_rate_threshold : Nat
  flow_timeout : ℚ
  max_flows : Nat
  max_events : Nat
  local_networks : List IpNetwork
deriving DecidableEq, Repr

/-- `TrafficInspector::new` (src/traffic/inspector.rs:70-90): default
thresholds and the four default local networks (loopback and RFC 1918),
whose literals all parse. -/
def TrafficInspector.new : TrafficInspector :=
  { active_flows := []
    flow_history := []
    traffic_events := []
    bandwidth_threshold := 1000000
    packet_rate_threshold := 1000
    flow_timeout := 300
    max_flows := 10000
    max_events := 1000
    local_networks :=
      [.v4net (ipv4Val 127 0 0 0) 8, .v4net (ipv4Val 10 0 0 0) 8,
       .v4net (ipv4Val 172 16 0 0) 12, .v4net (ipv4Val 192 168 0 0) 16] }

/-- `TrafficInspector::is_local_address` (src/traffic/inspector.rs:213-215). -/
def is_local_address (ins : TrafficInspector) (addr : IpAddrM) : Bool :=
  ins.local_networks.any fun network => ipNetworkContains network addr

/-- `TrafficInspector::determine_flow_direction`
(src/traffic/inspector.rs:201-211). -/
def determine_flow_direction (ins : TrafficInspector) (src dst : SockAddr) :
    FlowDirection :=
  match is_local_address ins src.ip, is_local_address ins dst.ip with
  | true, true => .internal
  | true, false => .outbound
  | false, true => .inbound
  | false, false => .unknownDir

/-- `TrafficInspector::add_event` (src/traffic/inspector.rs:254-259). -/
def add_event (ins : TrafficInspector) (event : TrafficEvent) :
    TrafficInspector :=
  { ins with traffic_events := ringPush ins.traffic_events event ins.max_events }

/-- The flow-statistics update of `inspect_packet`
(src/traffic/inspector.rs:157-168): bump counts, refresh `last_seen` and
protocol, and recompute both rates when the elapsed time since the flow
started is positive. -/
def updateFlowStats (f : TrafficFlow) (len : Nat) (protocol : ProtocolType)
    (now : ℚ) : TrafficFlow :=
  let f1 := { f with
    packet_count := f.packet_count + 1
    byte_count := f.byte_count + len
    last_seen := now
    protocol := protocol }
  match duration_since now f1.start_time with
  | some seconds =>
    if 0 < seconds then
      { f1 with
        packets_per_second := (f1.packet_count : ℚ) / seconds
        bytes_per_second := (f1.byte_count : ℚ) / seconds }
    else f1
  | none => f1

/-- The high-bandwidth check of `inspect_packet`
(src/traffic/inspector.rs:170-182), evaluated only when elapsed time is
positive. -/
def flowAlert (f : TrafficFlow) (now : ℚ) (threshold : Nat) : Bool :=
  match duration_since now f.start_time with
  | some seconds =>
    decide (0 < seconds) && decide ((threshold : ℚ) < f.bytes_per_second)
  | none => false

/-- `TrafficInspector::cleanup_expired_flows`
(src/traffic/inspector.rs:217-252): move flows idle longer than the timeout
to the bounded history ring, emitting a `FlowEnded` event for each. -/
def cleanup_expired_flows (ins : TrafficInspector) (now : ℚ) :
    TrafficInspector :=
  let isExpired := fun (kv : PairKey × TrafficFlow) =>
    decide (ins.flow_timeout < (duration_since now kv.2.last_seen).getD 0)
  let expired := ins.active_flows.filter isExpired
  let remaining := ins.active_flows.filter fun kv => ! isExpired kv
  let folded := expired.foldl
    (fun acc kv =>
      (ringPush acc.1
        { timestamp := now, event_type := .flowEnded, flow_id := kv.1,
          severity := .info } ins.max_events,
       ringPush acc.2 { kv.2 with is_active := false } ins.max_flows))
    (ins.traffic_events, ins.flow_history)
  { ins with
    active_flows := remaining
    traffic_events := folded.1
    flow_history := folded.2 }


/-- The fresh flow built when `inspect_packet` sees a new pair key
(src/traffic/inspector.rs:128-141). -/
def newFlowAt (flow_id : PairKey) (src_addr dst_addr : SockAddr)
    (direction : FlowDirection) (protocol : ProtocolType) (now : ℚ) :
    TrafficFlow :=
  { flow_id := flow_id
    src_addr := src_addr
    dst_addr := dst_addr
    protocol := protocol
    direction := direction
    start_time := now
    last_seen := now
    packet_count := 0
    byte_count := 0
    packets_per_second := 0
    bytes_per_second := 0
    is_active := true }

/-- The statistics-update-and-alert tail of `inspect_packet`
(src/traffic/inspector.rs:155-184), applied to the flow `f0` stored under
`flow_id`. -/
def inspectHit (ins : TrafficInspector) (flow_id : PairKey) (f0 : TrafficFlow)
    (len : Nat) (protocol : ProtocolType) (now : ℚ) : TrafficInspector :=
  let f1 := updateFlowStats f0 len protocol now
  let insA := { ins with
    active_flows := updateEntry flow_id (fun _ => f1) f1 ins.active_flows }
  if flowAlert f1 now ins.bandwidth_threshold then
    add_event insA
      { timestamp := now, event_type := .highBandwidth, flow_id := flow_id,
        severity := .warning }
  else insA

/-- The new-flow branch of `inspect_packet`
(src/traffic/inspector.rs:126-153): insert the fresh flow, emit
`FlowStarted`, then run the shared statistics update on it. -/
def inspectMiss (ins : TrafficInspector) (flow_id : PairKey)
    (src_addr dst_addr : SockAddr) (direction : FlowDirection) (len : Nat)
    (protocol : ProtocolType) (now : ℚ) : TrafficInspector :=
  inspectHit
    (add_event
      { ins with
        active_flows := ins.active_flows ++
          [(flow_id, newFlowAt flow_id src_addr dst_addr direction protocol
            now)] }
      { timestamp := now, event_type := .flowStarted, flow_id := flow_id,
        severity := .info })
    flow_id (newFlowAt flow_id src_addr dst_addr direction protocol now)
    len protocol now

/-- `TrafficInspector::inspect_packet` (src/traffic/inspector.rs:112-190):
on a parseable packet, create the flow if absent (emitting `FlowStarted`),
update its statistics, and possibly emit `HighBandwidth`; always finish by
expiring idle flows. -/
def inspectParsed (ins : TrafficInspector) (src_addr dst_addr : SockAddr)
    (len : Nat) (protocol : ProtocolType) (now : ℚ) : TrafficInspector :=
  match lookupEntry (generate_flow_id src_addr dst_addr) ins.active_flows with
  | some f0 =>
    inspectHit ins (generate_flow_id src_addr dst_addr) f0 len protocol now
  | none =>
    inspectMiss ins (generate_flow_id src_addr dst_addr) src_addr dst_addr
      (determine_flow_direction ins src_addr dst_addr) len protocol now

/-- `TrafficInspector::inspect_packet`, assembled from the pieces above. -/
def inspect_packet (ins : TrafficInspector) (p : PacketInfo)
    (protocol : ProtocolType) (now : ℚ) : TrafficInspector :=
  let ins2 :=
    match trackParse p with
    | none => ins
    | some (src_addr, dst_addr) =>
      inspectParsed ins src_addr dst_addr p.length protocol now
  cleanup_expired_flows ins2 now

theorem inspectHit_active_flows (ins : TrafficInspector) (flow_id : PairKey)
    (f0 : TrafficFlow) (len : Nat) (protocol : ProtocolType) (now : ℚ) :
    (inspectHit ins flow_id f0 len protocol now).active_flows =
      updateEntry flow_id (fun _ => updateFlowStats f0 len protocol now)
        (updateFlowStats f0 len protocol now) ins.active_flows := by
  simp only [inspectHit]
  split <;> rfl

theorem inspectMiss_active_flows (ins : TrafficInspector) (flow_id : PairKey)
    (src_addr dst_addr : SockAddr) (direction : FlowDirection) (len : Nat)
    (protocol : ProtocolType) (now : ℚ) :
    (inspectMiss ins flow_id src_addr dst_addr direction len protocol
      now).active_flows =
      updateEntry flow_id
        (fun _ => updateFlowStats
          (newFlowAt flow_id src_addr dst_addr direction protocol now) len
          protocol now)
        (updateFlowStats
          (newFlowAt flow_id src_addr dst_addr direction protocol now) len
          protocol now)
        (ins.active_flows ++
          [(flow_id, newFlowAt flow_id src_addr dst_addr direction protocol
            now)]) := by
  simp only [inspectMiss, inspectHit]
  split <;> rfl

/-- Per-flow rate invariant: the stored `bytes_per_second` is zero until the
flow has positive age, and otherwise equals `byte_count` over the age at the
last update. -/
def FlowInv (f : TrafficFlow) : Prop :=
  f.start_time ≤ f.last_seen ∧
  (f.last_seen = f.start_time → f.bytes_per_second = 0) ∧
  (f.start_time < f.last_seen →
    f.bytes_per_second = (f.byte_count : ℚ) / (f.last_seen - f.start_time))

/-- Inspector invariant at clock `c`: every active flow satisfies the rate
invariant and was last seen no later than `c`. -/
def InspInv (ins : TrafficInspector) (c : ℚ) : Prop :=
  ∀ kv ∈ ins.active_flows, FlowInv kv.2 ∧ kv.2.last_seen ≤ c

theorem mem_updateEntry_const {α : Type} [DecidableEq α] {β : Type}
    (k : α) (v : β) :
    ∀ (m : List (α × β)) (kv : α × β),
      kv ∈ updateEntry k (fun _ => v) v m → kv ∈ m ∨ kv = (k, v) := by
  intro m
  induction m with
  | nil =>
    intro kv hkv
    simp only [updateEntry, List.mem_singleton] at hkv
    exact Or.inr hkv
  | cons hd tl ih =>
    intro kv hkv
    simp only [updateEntry] at hkv
    by_cases hk : hd.1 = k
    · rw [if_pos hk] at hkv
      rcases List.mem_cons.mp hkv with h | h
      · right
        rw [h, hk]
      · exact Or.inl (List.mem_cons_of_mem _ h)
    · rw [if_neg hk] at hkv
      rcases List.mem_cons.mp hkv with h | h
      · exact Or.inl (h ▸ List.mem_cons_self _ _)
      · rcases ih kv h with h' | h'
        · exact Or.inl (List.mem_cons_of_mem _ h')
        · exact Or.inr h'

theorem lookupEntry_mem {α : Type} [DecidableEq α] {β : Type} (k : α) :
    ∀ (m : List (α × β)) (v : β), lookupEntry k m = some v → (k, v) ∈ m := by
  intro m
  induction m with
  | nil => intro v hv; simp [lookupEntry] at hv
  | cons hd tl ih =>
    intro v hv
    simp only [lookupEntry] at hv
    by_cases hk : hd.1 = k
    · rw [if_pos hk] at hv
      injection hv with he
      have hhd : hd = (k, v) := by
        cases hd
        simp_all
      rw [← hhd]
      exact List.mem_cons_self _ _
    · rw [if_neg hk] at hv
      exact List.mem_cons_of_mem _ (ih v hv)

theorem flowInv_update (f : TrafficFlow) (len : Nat) (protocol : ProtocolType)
    (now : ℚ) (hf : FlowInv f) (hn : f.last_seen ≤ now) :
    FlowInv (updateFlowStats f len protocol now) ∧
      (updateFlowStats f len protocol now).last_seen = now := by
  obtain ⟨h1, h2, h3⟩ := hf
  have hstart : f.start_time ≤ now := le_trans h1 hn
  simp only [updateFlowStats, duration_since, if_pos hstart]
  by_cases hpos : (0 : ℚ) < now - f.start_time
  · rw [if_pos hpos]
    refine ⟨⟨hstart, ?_, ?_⟩, rfl⟩
    · intro he
      have hne : now = f.start_time := he
      exfalso
      rw [hne] at hpos
      simp at hpos
    · intro _
      rfl
  · rw [if_neg hpos]
    have heq : now = f.start_time := by
      have hle : now - f.start_time ≤ 0 := le_of_not_lt hpos
      linarith
    have hls : f.last_seen = f.start_time := le_antisymm (heq ▸ hn) h1
    refine ⟨⟨hstart, ?_, ?_⟩, rfl⟩
    · intro _
      exact h2 hls
    · intro hlt
      have hlt' : f.start_time < now := hlt
      exfalso
      rw [heq] at hlt'
      exact lt_irrefl _ hlt'

theorem inspInv_cleanup (ins : TrafficInspector) (now c : ℚ)
    (h : InspInv ins c) : InspInv (cleanup_expired_flows ins now) c := by
  intro kv hkv
  simp only [cleanup_expired_flows, List.mem_filter] at hkv
  exact h kv hkv.1

theorem inspInv_hit (ins : TrafficInspector) (flow_id : PairKey)
    (f0 : TrafficFlow) (len : Nat) (protocol : ProtocolType) (now : ℚ)
    (hinv : InspInv ins now) (hf : FlowInv f0) (hn : f0.last_seen ≤ now) :
    InspInv (inspectHit ins flow_id f0 len protocol now) now := by
  intro kv hkv
  rw [inspectHit_active_flows] at hkv
  rcases mem_updateEntry_const _ _ _ _ hkv with h | h
  · exact hinv kv h
  · rw [h]
    have hup := flowInv_update f0 len protocol now hf hn
    exact ⟨hup.1, le_of_eq hup.2⟩

theorem flowInv_newFlow (flow_id : PairKey) (src_addr dst_addr : SockAddr)
    (direction : FlowDirection) (protocol : ProtocolType) (now : ℚ) :
    FlowInv (newFlowAt flow_id src_addr dst_addr direction protocol now) := by
  refine ⟨le_refl _, fun _ => rfl, ?_⟩
  intro hlt
  exact absurd hlt (lt_irrefl _)

theorem inspInv_miss (ins : TrafficInspector) (flow_id : PairKey)
    (src_addr dst_addr : SockAddr) (direction : FlowDirection) (len : Nat)
    (protocol : ProtocolType) (now : ℚ) (hinv : InspInv ins now) :
    InspInv (inspectMiss ins flow_id src_addr dst_addr direction len protocol
      now) now := by
  intro kv hkv
  rw [inspectMiss_active_flows] at hkv
  rcases mem_updateEntry_const _ _ _ _ hkv with h | h
  · rcases List.mem_append.mp h with h' | h'
    · exact hinv kv h'
    · simp only [List.mem_singleton] at h'
      rw [h']
      exact ⟨flowInv_newFlow _ _ _ _ _ _, le_refl _⟩
  · rw [h]
    have hup := flowInv_update _ len protocol now
      (flowInv_newFlow flow_id src_addr dst_addr direction protocol now)
      (le_refl _)
    exact ⟨hup.1, le_of_eq hup.2⟩

theorem inspInv_inspect (ins : TrafficInspector) (p : PacketInfo)
    (protocol : ProtocolType) (c now : ℚ) (hinv : InspInv ins c)
    (hc : c ≤ now) : InspInv (inspect_packet ins p protocol now) now := by
  have hweak : InspInv ins now := fun kv hkv =>
    ⟨(hinv kv hkv).1, le_trans (hinv kv hkv).2 hc⟩
  unfold inspect_packet
  apply inspInv_cleanup
  cases hp : trackParse p with
  | none => exact hweak
  | some pr =>
    obtain ⟨src_addr, dst_addr⟩ := pr
    show InspInv (inspectParsed ins src_addr dst_addr p.length protocol now)
      now
    unfold inspectParsed
    cases hlk : lookupEntry (generate_flow_id src_addr dst_addr)
        ins.active_flows with
    | some f0 =>
      have hm := lookupEntry_mem _ _ _ hlk
      exact inspInv_hit ins _ f0 p.length protocol now hweak
        (hweak _ hm).1 (hweak _ hm).2
    | none =>
      exact inspInv_miss ins _ src_addr dst_addr _ p.length protocol now hweak

/-- Sequential application of `inspect_packet` over timestamped packets. -/
def inspectAll (ins : TrafficInspector) :
    List (PacketInfo × ProtocolType × ℚ) → TrafficInspector
  | [] => ins
  | q :: rest => inspectAll (inspect_packet ins q.1 q.2.1 q.2.2) rest

theorem inspInv_inspectAll :
    ∀ (qs : List (PacketInfo × ProtocolType × ℚ)) (ins : TrafficInspector)
      (c : ℚ), InspInv ins c →
      List.Chain' (· ≤ ·) (c :: qs.map fun q => q.2.2) →
      ∃ c', InspInv (inspectAll ins qs) c' := by
  intro qs
  induction qs with
  | nil =>
    intro ins c h _
    exact ⟨c, h⟩
  | cons q rest ih =>
    intro ins c h hchain
    rw [List.map_cons, List.chain'_cons] at hchain
    exact ih _ q.2.2 (inspInv_inspect ins q.1 q.2.1 c q.2.2 h hchain.1)
      hchain.2

/-- C7 (amended): after any chronological sequence of `inspect_packet`
calls, every active flow whose age at its last update is at least one second
satisfies `bytes_per_second ≤ byte_count / max 1 elapsed` (with equality);
sub-second flows can exceed that bound, see the counterexample. -/
theorem flow_rate_bound (qs : List (PacketInfo × ProtocolType × ℚ))
    (hchain : List.Chain' (· ≤ ·) (qs.map fun q => q.2.2)) :
    ∀ kv ∈ (inspectAll TrafficInspector.new qs).active_flows,
      1 ≤ kv.2.last_seen - kv.2.start_time →
      kv.2.bytes_per_second ≤
        (kv.2.byte_count : ℚ) / max 1 (kv.2.last_seen - kv.2.start_time) := by
  have hinv : ∃ c', InspInv (inspectAll TrafficInspector.new qs) c' := by
    cases qs with
    | nil =>
      refine ⟨0, ?_⟩
      intro kv hkv
      simp [TrafficInspector.new, inspectAll] at hkv
    | cons q rest =>
      apply inspInv_inspectAll (q :: rest) TrafficInspector.new q.2.2
      · intro kv hkv
        simp [TrafficInspector.new] at hkv
      · rw [List.map_cons, List.chain'_cons]
        rw [List.map_cons] at hchain
        exact ⟨le_refl _, hchain⟩
  obtain ⟨c', hinv⟩ := hinv
  intro kv hkv h1
  obtain ⟨⟨hle, _, hrate⟩, _⟩ := hinv kv hkv
  have hlt : kv.2.start_time < kv.2.last_seen := by linarith
  rw [hrate hlt, max_eq_right h1]

/-- Two 50-byte packets on the same pair, the second half a second after the
first. -/
def c7Packet : PacketInfo :=
  { timestamp := 0
    length := 50
    protocol := .tcp
    src_ip := some (.v4str 192 168 1 1)
    dst_ip := some (.v4str 10 0 0 1)
    src_port := some 12345
    dst_port := some 80 }

theorem flow_rate_bound_witness :
    List.Chain' (· ≤ ·)
      (([(c7Packet, ProtocolType.http, 0), (c7Packet, ProtocolType.http, 2)] :
        List (PacketInfo × ProtocolType × ℚ)).map fun q => q.2.2) ∧
    (∀ kv ∈ (inspectAll TrafficInspector.new
        [(c7Packet, ProtocolType.http, 0),
         (c7Packet, ProtocolType.http, 2)]).active_flows,
      1 ≤ kv.2.last_seen - kv.2.start_time →
      kv.2.bytes_per_second ≤
        (kv.2.byte_count : ℚ) / max 1 (kv.2.last_seen - kv.2.start_time)) :=
  ⟨by
    simp only [List.map_cons, List.map_nil]
    exact List.chain'_pair.mpr (by norm_num),
   flow_rate_bound _ (by
    simp only [List.map_cons, List.map_nil]
    exact List.chain'_pair.mpr (by norm_num))⟩

/-- The pair key and flow produced by the two sub-second `c7Packet`
observations. -/
def c7Key : PairKey := (⟨.v4 10 0 0 1, 80⟩, ⟨.v4 192 168 1 1, 12345⟩)

def c7Flow : TrafficFlow :=
  { flow_id := c7Key
    src_addr := ⟨.v4 192 168 1 1, 12345⟩
    dst_addr := ⟨.v4 10 0 0 1, 80⟩
    protocol := ProtocolType.http
    direction := FlowDirection.internal
    start_time := 0
    last_seen := 1/2
    packet_count := 2
    byte_count := 100
    packets_per_second := 4
    bytes_per_second := 200
    is_active := true }

set_option maxHeartbeats 1000000 in
theorem c7_state_eval :
    (inspectAll TrafficInspector.new
        [(c7Packet, ProtocolType.http, 0),
         (c7Packet, ProtocolType.http, 1/2)]).active_flows =
      [(c7Key, c7Flow)] := by
  norm_num [inspectAll, inspect_packet, inspectParsed, inspectHit, inspectMiss,
    newFlowAt, updateFlowStats, duration_since, flowAlert, add_event, ringPush,
    cleanup_expired_flows, determine_flow_direction, is_local_address,
    ipNetworkContains, ipv4Val, TrafficInspector.new, updateEntry, lookupEntry,
    trackParse, parseSockAddrStr, generate_flow_id, SockAddr.ltb, IpAddrM.ltb,
    natListLt, c7Packet, c7Key, c7Flow]
  decide

/-- C7 counterexample: the claim as stated fails for a sub-second flow —
two 50-byte packets half a second apart give `bytes_per_second = 200` while
`byte_count / max(1, elapsed) = 100 / 1 = 100`. -/
theorem flow_rate_claim_counterexample :
    ∃ kv ∈ (inspectAll TrafficInspector.new
        [(c7Packet, ProtocolType.http, 0),
         (c7Packet, ProtocolType.http, 1/2)]).active_flows,
      ¬ (kv.2.bytes_per_second ≤
        (kv.2.byte_count : ℚ) / max 1 (kv.2.last_seen - kv.2.start_time)) := by
  rw [c7_state_eval]
  refine ⟨(c7Key, c7Flow), List.mem_singleton_self _, ?_⟩
  have hmax : max (1 : ℚ) ((1 : ℚ)/2 - 0) = 1 := by
    rw [max_eq_left]
    norm_num
  simp only [c7Flow]
  rw [hmax]
  norm_num

/-- `PatternType` (src/traffic/analyzer.rs:16-25). -/
inductive PatternType where
  | burstTraffic | steadyStream | periodicSpikes | anomalousActivity
  | ddosPattern | portScan | dataExfiltration
deriving DecidableEq, Repr

/-- `TrafficPattern` (src/traffic/analyzer.rs:6-14), minus the display-only
id and description strings. -/
structure TrafficPattern where
  confidence : ℚ
  detected_at : ℚ
  pattern_type : PatternType
  related_flows : List PairKey
deriving DecidableEq, Repr

/-- `BandwidthSample` (src/traffic/analyzer.rs:39-46). -/
structure BandwidthSample where
  timestamp : ℚ
  total_bps : ℚ
  inbound_bps : ℚ
  outbound_bps : ℚ
  internal_bps : ℚ
deriving DecidableEq, Repr

/-- `BandwidthAnalysis` (src/traffic/analyzer.rs:27-37). -/
structure BandwidthAnalysis where
  total_bandwidth : ℚ
  inbound_bandwidth : ℚ
  outbound_bandwidth : ℚ
  internal_bandwidth : ℚ
  peak_bandwidth : ℚ
  average_bandwidth : ℚ
  bandwidth_utilization : ℚ
  bandwidth_history : List BandwidthSample
deriving DecidableEq, Repr

/-- `ProtocolStats` (src/traffic/analyzer.rs:56-64). -/
structure ProtocolStats where
  flow_count : Nat
  total_bytes : Nat
  total_packets : Nat
  bandwidth_bps : ℚ
  packet_rate_pps : ℚ
  percentage_of_total : ℚ
deriving DecidableEq, Repr

/-- `ProtocolBreakdown` (src/traffic/analyzer.rs:48-54). -/
structure ProtocolBreakdown where
  protocol_stats : List (ProtocolType × ProtocolStats)
  top_protocols : List (ProtocolType × ℚ)
  total_flows : Nat
  total_bandwidth : ℚ
deriving DecidableEq, Repr

/-- `TrafficAnalyzer` (src/traffic/analyzer.rs:88-102). -/
structure TrafficAnalyzer where
  bandwidth_samples : List BandwidthSample
  detected_patterns : List TrafficPattern
  protocol_cache : List (ProtocolType × ProtocolStats)
  analysis_window : ℚ
  sample_interval : ℚ
  max_samples : Nat
  max_patterns : Nat
  last_analysis : ℚ
  burst_threshold : ℚ
  anomaly_threshold : ℚ
  ddos_threshold : Nat
deriving DecidableEq, Repr

/-- `TrafficAnalyzer::new` (src/traffic/analyzer.rs:105-119) at construction
instant `t0`. -/
def TrafficAnalyzer.new (t0 : ℚ) : TrafficAnalyzer :=
  { bandwidth_samples := []
    detected_patterns := []
    protocol_cache := []
    analysis_window := 300
    sample_interval := 1
    max_samples := 3600
    max_patterns := 100
    last_analysis := t0
    burst_threshold := 10
    anomaly_threshold := 5
    ddos_threshold := 100 }

/-- `TrafficAnalysisResult` (src/traffic/analyzer.rs:496-503); the
geographic analysis is always the empty placeholder and is omitted. -/
structure TrafficAnalysisResult where
  bandwidth_analysis : BandwidthAnalysis
  protocol_breakdown : ProtocolBreakdown
  patterns : List TrafficPattern
  analysis_timestamp : ℚ
deriving DecidableEq, Repr

/-- Sum of `bytes_per_second` over flows of one direction. -/
def sumBps (flows : List (PairKey × TrafficFlow)) (dir : FlowDirection) : ℚ :=
  flows.foldl
    (fun acc kv => if kv.2.direction = dir then acc + kv.2.bytes_per_second
      else acc) 0

/-- `TrafficAnalyzer::collect_bandwidth_sample`
(src/traffic/analyzer.rs:177-201).  Note the source first accumulates
`Unknown`-direction flows into `total_bps` and then overwrites `total_bps`
with `inbound + outbound + internal`, so `Unknown` flows do not contribute. -/
def collect_bandwidth_sample (flows : List (PairKey × TrafficFlow))
    (now : ℚ) : BandwidthSample :=
  let inbound := sumBps flows .inbound
  let outbound := sumBps flows .outbound
  let internal := sumBps flows .internal
  { timestamp := now
    total_bps := inbound + outbound + internal
    inbound_bps := inbound
    outbound_bps := outbound
    internal_bps := internal }

/-- The all-zero `BandwidthAnalysis` built both for an empty sample history
(src/traffic/analyzer.rs:204-215) and by the cached path
(src/traffic/analyzer.rs:461-470). -/
def zeroBandwidthAnalysis : BandwidthAnalysis :=
  { total_bandwidth := 0
    inbound_bandwidth := 0
    outbound_bandwidth := 0
    internal_bandwidth := 0
    peak_bandwidth := 0
    average_bandwidth := 0
    bandwidth_utilization := 0
    bandwidth_history := [] }

/-- `TrafficAnalyzer::analyze_bandwidth` (src/traffic/analyzer.rs:203-255):
latest sample's figures, peak and average over the last 300 samples, and
utilization against a nominal 1 Gbps link clamped to 100. -/
def analyze_bandwidth (a : TrafficAnalyzer) : BandwidthAnalysis :=
  match a.bandwidth_samples.getLast? with
  | none => zeroBandwidthAnalysis
  | some latest =>
    let recent := a.bandwidth_samples.reverse.take 300
    let peak := recent.foldl (fun m s => max m s.total_bps) 0
    let avg := if recent.length = 0 then 0
      else (recent.foldl (fun acc s => acc + s.total_bps) (0 : ℚ)) /
        (recent.length : ℚ)
    { total_bandwidth := latest.total_bps
      inbound_bandwidth := latest.inbound_bps
      outbound_bandwidth := latest.outbound_bps
      internal_bandwidth := latest.internal_bps
      peak_bandwidth := peak
      average_bandwidth := avg
      bandwidth_utilization := min (latest.total_bps / 1000000000 * 100) 100
      bandwidth_history := a.bandwidth_samples }

/-- The per-flow accumulation step of `analyze_protocols`
(src/traffic/analyzer.rs:263-280). -/
def protoStatsStep (m : List (ProtocolType × ProtocolStats))
    (kv : PairKey × TrafficFlow) : List (ProtocolType × ProtocolStats) :=
  updateEntry kv.2.protocol
    (fun s => { s with
      flow_count := s.flow_count + 1
      total_bytes := s.total_bytes + kv.2.byte_count
      total_packets := s.total_packets + kv.2.packet_count
      bandwidth_bps := s.bandwidth_bps + kv.2.bytes_per_second
      packet_rate_pps := s.packet_rate_pps + kv.2.packets_per_second })
    { flow_count := 0
      total_bytes := 0
      total_packets := 0
      bandwidth_bps := 0
      packet_rate_pps := 0
      percentage_of_total := 0 }
    m

/-- `TrafficAnalyzer::analyze_protocols` (src/traffic/analyzer.rs:257-307):
accumulate per-protocol statistics, fill in bandwidth percentages, sort the
percentage list descending (stable), and cache the statistics map.  Returns
the breakdown and the new cache. -/
def analyze_protocols (_a : TrafficAnalyzer)
    (flows : List (PairKey × TrafficFlow)) :
    ProtocolBreakdown × List (ProtocolType × ProtocolStats) :=
  let stats0 := flows.foldl protoStatsStep []
  let total_bandwidth :=
    flows.foldl (fun acc kv => acc + kv.2.bytes_per_second) 0
  let stats := stats0.map fun ps =>
    (ps.1, { ps.2 with
      percentage_of_total := if 0 < total_bandwidth then
        ps.2.bandwidth_bps / total_bandwidth * 100 else 0 })
  let top := sortByKeyQ (fun pr => -pr.2)
    (stats.map fun ps => (ps.1, ps.2.percentage_of_total))
  ({ protocol_stats := stats
     top_protocols := top
     total_flows := flows.length
     total_bandwidth := total_bandwidth },
   stats)

/-- `TrafficAnalyzer::detect_burst_pattern`
(src/traffic/analyzer.rs:336-359): at least 10 samples and the current
total above `burst_threshold` times the mean of the last 10. -/
def detect_burst_pattern (a : TrafficAnalyzer) (now : ℚ) :
    Option TrafficPattern :=
  if a.bandwidth_samples.length < 10 then none
  else
    let recent := a.bandwidth_samples.reverse.take 10
    let current := (recent.headD ⟨0, 0, 0, 0, 0⟩).total_bps
    let avg := (recent.foldl (fun acc s => acc + s.total_bps) (0 : ℚ)) /
      (recent.length : ℚ)
    if avg * a.burst_threshold < current then
      some { confidence := 4/5
             detected_at := now
             pattern_type := .burstTraffic
             related_flows := [] }
    else none

/-- The flow-count-by-source grouping of `detect_ddos_pattern`
(src/traffic/analyzer.rs:362-367). -/
def countBySource (flows : List (PairKey × TrafficFlow)) :
    List (IpAddrM × Nat) :=
  flows.foldl (fun m kv => updateEntry kv.2.src_addr.ip (fun n => n + 1) 0 m)
    []

/-- `TrafficAnalyzer::detect_ddos_pattern`
(src/traffic/analyzer.rs:361-387): first source with more than
`ddos_threshold` flows. -/
def detect_ddos_pattern (a : TrafficAnalyzer)
    (flows : List (PairKey × TrafficFlow)) (now : ℚ) :
    Option TrafficPattern :=
  match (countBySource flows).find? fun pr =>
      decide (a.ddos_threshold < pr.2) with
  | some pr =>
    some { confidence := 9/10
           detected_at := now
           pattern_type := .ddosPattern
           related_flows :=
             ((flows.filter fun kv => decide (kv.2.src_addr.ip = pr.1)).map
               fun kv => kv.2.flow_id) }
  | none => none

/-- The distinct-destination-ports-by-source grouping of
`detect_port_scan_pattern` (src/traffic/analyzer.rs:391-397). -/
def portsBySource (flows : List (PairKey × TrafficFlow)) :
    List (IpAddrM × List Nat) :=
  flows.foldl
    (fun m kv => updateEntry kv.2.src_addr.ip
      (fun ports => if ports.contains kv.2.dst_addr.port then ports
        else ports ++ [kv.2.dst_addr.port])
      [kv.2.dst_addr.port] m)
    []

/-- `TrafficAnalyzer::detect_port_scan_pattern`
(src/traffic/analyzer.rs:389-417): first source covering more than 20
distinct destination ports. -/
def detect_port_scan_pattern (flows : List (PairKey × TrafficFlow))
    (now : ℚ) : Option TrafficPattern :=
  match (portsBySource flows).find? fun pr => decide (20 < pr.2.length) with
  | some pr =>
    some { confidence := 17/20
           detected_at := now
           pattern_type := .portScan
           related_flows :=
             ((flows.filter fun kv => decide (kv.2.src_addr.ip = pr.1)).map
               fun kv => kv.2.flow_id) }
  | none => none

/-- `TrafficAnalyzer::detect_anomaly_pattern`
(src/traffic/analyzer.rs:419-447): at least 60 samples and
`|current − mean| > anomaly_threshold × stddev` over the last 60.  Both
sides being nonnegative, the comparison is modelled by its square,
`(current − mean)² > variance × threshold²`, avoiding the square root. -/
def detect_anomaly_pattern (a : TrafficAnalyzer) (now : ℚ) :
    Option TrafficPattern :=
  if a.bandwidth_samples.length < 60 then none
  else
    let vals := (a.bandwidth_samples.reverse.take 60).map fun s => s.total_bps
    let mean := (vals.foldl (fun acc x => acc + x) (0 : ℚ)) /
      (vals.length : ℚ)
    let variance := ((vals.map fun x => (x - mean)^2).foldl
      (fun acc x => acc + x) (0 : ℚ)) / (vals.length : ℚ)
    let current := vals.headD 0
    if variance * a.anomaly_threshold^2 < (current - mean)^2 then
      some { confidence := 7/10
             detected_at := now
             pattern_type := .anomalousActivity
             related_flows := [] }
    else none

/-- `TrafficAnalyzer::detect_patterns` (src/traffic/analyzer.rs:309-334):
each detector contributes at most one pattern, in this order. -/
def detect_patterns (a : TrafficAnalyzer)
    (flows : List (PairKey × TrafficFlow)) (now : ℚ) : List TrafficPattern :=
  (detect_burst_pattern a now).toList ++
  (detect_ddos_pattern a flows now).toList ++
  (detect_port_scan_pattern flows now).toList ++
  (detect_anomaly_pattern a now).toList

/-- `TrafficAnalyzer::get_cached_analysis` (src/traffic/analyzer.rs:459-485):
zeroed bandwidth analysis, cached protocol statistics with empty
top-protocols and zero totals, and the accumulated patterns. -/
def get_cached_analysis (a : TrafficAnalyzer) (now : ℚ) :
    TrafficAnalysisResult :=
  { bandwidth_analysis := zeroBandwidthAnalysis
    protocol_breakdown :=
      { protocol_stats := a.protocol_cache
        top_protocols := []
        total_flows := 0
        total_bandwidth := 0 }
    patterns := a.detected_patterns
    analysis_timestamp := now }

/-- The `while len > max { pop_front }` loop maintaining the bandwidth
sample ring (src/traffic/analyzer.rs:150-152). -/
def ringDrain {α : Type} (l : List α) (maxLen : Nat) : List α :=
  l.drop (l.length - maxLen)

/-- `TrafficAnalyzer::analyze_traffic` (src/traffic/analyzer.rs:135-175):
when called before a full sample interval has elapsed, return the cached
partial result without touching any state; otherwise take a bandwidth
sample, maintain the ring, analyze, detect patterns and append them to the
bounded pattern ring. -/
def analyze_full (a : TrafficAnalyzer)
    (flows : List (PairKey × TrafficFlow)) (now : ℚ) :
    TrafficAnalysisResult × TrafficAnalyzer :=
  let a1 := { a with last_analysis := now }
    let sample := collect_bandwidth_sample flows now
    let a2 := { a1 with
      bandwidth_samples :=
        ringDrain (a1.bandwidth_samples ++ [sample]) a1.max_samples }
    let ba := analyze_bandwidth a2
    let pbc := analyze_protocols a2 flows
    let pats := detect_patterns a2 flows now
    let a3 := { a2 with protocol_cache := pbc.2 }
    let a4 := pats.foldl
      (fun acc p => { acc with
        detected_patterns := ringPush acc.detected_patterns p
          acc.max_patterns })
      a3
    ({ bandwidth_analysis := ba
       protocol_breakdown := pbc.1
       patterns := a4.detected_patterns
       analysis_timestamp := now },
     a4)

def analyze_traffic (a : TrafficAnalyzer)
    (flows : List (PairKey × TrafficFlow)) (now : ℚ) :
    TrafficAnalysisResult × TrafficAnalyzer :=
  if now - a.last_analysis < a.sample_interval then
    (get_cached_analysis a now, a)
  else
    analyze_full a flows now

/-- One inbound flow carrying 500 bytes/s, the analyzer input for C4. -/
def c4Key : PairKey := (⟨.v4 10 0 0 1, 80⟩, ⟨.v4 192 168 1 5, 2000⟩)

def c4Flow : TrafficFlow :=
  { flow_id := c4Key
    src_addr := ⟨.v4 192 168 1 5, 2000⟩
    dst_addr := ⟨.v4 10 0 0 1, 80⟩
    protocol := ProtocolType.http
    direction := FlowDirection.inbound
    start_time := 0
    last_seen := 1
    packet_count := 10
    byte_count := 500
    packets_per_second := 10
    bytes_per_second := 500
    is_active := true }

def c4Flows : List (PairKey × TrafficFlow) := [(c4Key, c4Flow)]

/-- The analyzer after one full run at `t = 1`. -/
def c4A1 : TrafficAnalyzer :=
  (analyze_traffic (TrafficAnalyzer.new 0) c4Flows 1).2

/-- C4: the code diverges from the claim at this input.  The full run at
`t = 1` reports `total_bandwidth = 500`; the re-poll at `t = 1.5`, half a
sample interval later, takes the cached path, leaves the analyzer untouched
(no new bandwidth sample), but reports a zeroed bandwidth analysis with an
empty history instead of the previous full result. -/
theorem analyzer_cached_result_divergence :
    ((3/2 : ℚ) - c4A1.last_analysis < c4A1.sample_interval) ∧
    (analyze_traffic (TrafficAnalyzer.new 0) c4Flows
      1).1.bandwidth_analysis.total_bandwidth = 500 ∧
    (analyze_traffic c4A1 c4Flows
      (3/2)).1.bandwidth_analysis.total_bandwidth = 0 ∧
    (analyze_traffic c4A1 c4Flows
      (3/2)).1.bandwidth_analysis.bandwidth_history = [] ∧
    (analyze_traffic c4A1 c4Flows (3/2)).2 = c4A1 := by
  norm_num [c4A1, c4Flows, c4Flow, c4Key, analyze_traffic, analyze_full,
    TrafficAnalyzer.new, collect_bandwidth_sample, sumBps, ringDrain,
    analyze_bandwidth, zeroBandwidthAnalysis, analyze_protocols,
    protoStatsStep, updateEntry, sortByKeyQ, insertSorted, detect_patterns,
    detect_burst_pattern, detect_ddos_pattern, detect_port_scan_pattern,
    detect_anomaly_pattern, countBySource, portsBySource,
    get_cached_analysis, ringPush]
  simp

theorem ringPush_length_le {α : Type} (l : List α) (x : α) (m : Nat)
    (h : l.length ≤ m) : (ringPush l x m).length ≤ m := by
  unfold ringPush
  by_cases hc : m < (l ++ [x]).length
  · rw [if_pos hc]
    simp only [List.length_tail, List.length_append, List.length_singleton]
    omega
  · rw [if_neg hc]
    simp only [List.length_append, List.length_singleton] at hc ⊢
    omega

theorem ringDrain_length_le {α : Type} (l : List α) (m : Nat) :
    (ringDrain l m).length ≤ m := by
  unfold ringDrain
  simp only [List.length_drop]
  omega

theorem processRules_events_le (src_ip dst_ip : IpAddrM)
    (src_port dst_port : Nat) (protocol : RuleProtocol)
    (direction : RuleDirection) (pkt_len : Nat) (now : ℚ) (maxEvents : Nat) :
    ∀ (rules : List FirewallRule) (st : FirewallStats)
      (ev : List FirewallEvent), ev.length ≤ maxEvents →
      (processRules src_ip dst_ip src_port dst_port protocol direction pkt_len
        now maxEvents rules st ev).2.2.2.length ≤ maxEvents := by
  intro rules
  induction rules with
  | nil => intro st ev h; exact h
  | cons r rs ih =>
    intro st ev h
    simp only [processRules]
    by_cases hm : matches_packet r src_ip dst_ip src_port dst_port protocol
        direction = true
    · rw [if_pos hm]
      cases ha : r.action
      · exact ringPush_length_le _ _ _ h
      · exact ringPush_length_le _ _ _ h
      · exact ih _ _ (ringPush_length_le _ _ _ h)
      · exact ringPush_length_le _ _ _ h
    · rw [if_neg hm]
      exact ih st ev h

theorem process_packet_ring_bounds (e : FirewallEngine) (p : PacketInfo)
    (t : ℚ) (h : e.recent_events.length ≤ e.max_events) :
    (process_packet e p t).2.recent_events.length ≤ e.max_events ∧
    (process_packet e p t).2.max_events = e.max_events := by
  cases hen : e.enabled with
  | false => constructor <;> simp [process_packet, hen, h]
  | true =>
    cases hsrc : p.src_ip.bind parseIpAddr with
    | none => constructor <;> simp [process_packet, hen, hsrc, h]
    | some sip =>
      cases hdst : p.dst_ip.bind parseIpAddr with
      | none => constructor <;> simp [process_packet, hen, hsrc, hdst, h]
      | some dip =>
        simp only [process_packet, hen, hsrc, hdst, Bool.true_eq_false,
          if_false]
        exact ⟨processRules_events_le _ _ _ _ _ _ _ _ _ _ _ _ h, trivial⟩

/-- Sequential application of `process_packet` over timestamped packets. -/
def processPackets (e : FirewallEngine) (ps : List (PacketInfo × ℚ)) :
    FirewallEngine :=
  ps.foldl (fun acc q => (process_packet acc q.1 q.2).2) e

theorem processPackets_ring_bounds :
    ∀ (ps : List (PacketInfo × ℚ)) (e : FirewallEngine),
      e.recent_events.length ≤ e.max_events →
      (processPackets e ps).recent_events.length ≤
        (processPackets e ps).max_events ∧
      (processPackets e ps).max_events = e.max_events := by
  intro ps
  induction ps with
  | nil => intro e h; exact ⟨h, rfl⟩
  | cons q rest ih =>
    intro e h
    have hstep := process_packet_ring_bounds e q.1 q.2 h
    have hrec := ih (process_packet e q.1 q.2).2
      (hstep.2 ▸ hstep.1)
    exact ⟨hrec.1, hrec.2.trans hstep.2⟩

theorem foldl_ringPush_pair_le {γ α β : Type} (f : γ → α) (g : γ → β)
    (me mf : Nat) :
    ∀ (L : List γ) (ev : List α) (hist : List β),
      ev.length ≤ me → hist.length ≤ mf →
      ((L.foldl (fun acc kv => (ringPush acc.1 (f kv) me,
        ringPush acc.2 (g kv) mf)) (ev, hist)).1.length ≤ me ∧
       (L.foldl (fun acc kv => (ringPush acc.1 (f kv) me,
        ringPush acc.2 (g kv) mf)) (ev, hist)).2.length ≤ mf) := by
  intro L
  induction L with
  | nil => intro ev hist he hh; exact ⟨he, hh⟩
  | cons c cs ih =>
    intro ev hist he hh
    exact ih _ _ (ringPush_length_le _ _ _ he) (ringPush_length_le _ _ _ hh)

theorem cleanup_ring_bounds (ins : TrafficInspector) (now : ℚ)
    (he : ins.traffic_events.length ≤ ins.max_events)
    (hh : ins.flow_history.length ≤ ins.max_flows) :
    (cleanup_expired_flows ins now).traffic_events.length ≤ ins.max_events ∧
    (cleanup_expired_flows ins now).flow_history.length ≤ ins.max_flows ∧
    (cleanup_expired_flows ins now).max_events = ins.max_events ∧
    (cleanup_expired_flows ins now).max_flows = ins.max_flows := by
  simp only [cleanup_expired_flows]
  have hb := foldl_ringPush_pair_le
    (fun kv : PairKey × TrafficFlow =>
      ({ timestamp := now
         event_type := .flowEnded
         flow_id := kv.1
         severity := .info } : TrafficEvent))
    (fun kv : PairKey × TrafficFlow => { kv.2 with is_active := false })
    ins.max_events ins.max_flows
    (ins.active_flows.filter fun kv =>
      decide (ins.flow_timeout < (duration_since now kv.2.last_seen).getD 0))
    ins.traffic_events ins.flow_history he hh
  exact ⟨hb.1, hb.2, trivial, trivial⟩

theorem inspectHit_ring_bounds (ins : TrafficInspector) (flow_id : PairKey)
    (f0 : TrafficFlow) (len : Nat) (protocol : ProtocolType) (now : ℚ)
    (he : ins.traffic_events.length ≤ ins.max_events) :
    (inspectHit ins flow_id f0 len protocol now).traffic_events.length ≤
      ins.max_events ∧
    (inspectHit ins flow_id f0 len protocol now).flow_history =
      ins.flow_history ∧
    (inspectHit ins flow_id f0 len protocol now).max_events =
      ins.max_events ∧
    (inspectHit ins flow_id f0 len protocol now).max_flows = ins.max_flows ∧
    (inspectHit ins flow_id f0 len protocol now).flow_timeout =
      ins.flow_timeout := by
  simp only [inspectHit]
  split
  · exact ⟨ringPush_length_le _ _ _ he, rfl, rfl, rfl, rfl⟩
  · exact ⟨he, rfl, rfl, rfl, rfl⟩

theorem inspectMiss_ring_bounds (ins : TrafficInspector) (flow_id : PairKey)
    (src_addr dst_addr : SockAddr) (direction : FlowDirection) (len : Nat)
    (protocol : ProtocolType) (now : ℚ)
    (he : ins.traffic_events.length ≤ ins.max_events) :
    (inspectMiss ins flow_id src_addr dst_addr direction len protocol
      now).traffic_events.length ≤ ins.max_events ∧
    (inspectMiss ins flow_id src_addr dst_addr direction len protocol
      now).flow_history = ins.flow_history ∧
    (inspectMiss ins flow_id src_addr dst_addr direction len protocol
      now).max_events = ins.max_events ∧
    (inspectMiss ins flow_id src_addr dst_addr direction len protocol
      now).max_flows = ins.max_flows ∧
    (inspectMiss ins flow_id src_addr dst_addr direction len protocol
      now).flow_timeout = ins.flow_timeout := by
  unfold inspectMiss
  exact inspectHit_ring_bounds _ _ _ _ _ _ (ringPush_length_le _ _ _ he)

theorem inspect_packet_ring_bounds (ins : TrafficInspector) (p : PacketInfo)
    (protocol : ProtocolType) (now : ℚ)
    (he : ins.traffic_events.length ≤ ins.max_events)
    (hh : ins.flow_history.length ≤ ins.max_flows) :
    (inspect_packet ins p protocol now).traffic_events.length ≤
      ins.max_events ∧
    (inspect_packet ins p protocol now).flow_history.length ≤
      ins.max_flows ∧
    (inspect_packet ins p protocol now).max_events = ins.max_events ∧
    (inspect_packet ins p protocol now).max_flows = ins.max_flows := by
  unfold inspect_packet
  cases hp : trackParse p with
  | none =>
    exact ⟨(cleanup_ring_bounds ins now he hh).1,
      (cleanup_ring_bounds ins now he hh).2.1,
      (cleanup_ring_bounds ins now he hh).2.2.1,
      (cleanup_ring_bounds ins now he hh).2.2.2⟩
  | some pr =>
    obtain ⟨sa, da⟩ := pr
    show (cleanup_expired_flows (inspectParsed ins sa da p.length protocol
      now) now).traffic_events.length ≤ ins.max_events ∧
      (cleanup_expired_flows (inspectParsed ins sa da p.length protocol
        now) now).flow_history.length ≤ ins.max_flows ∧
      (cleanup_expired_flows (inspectParsed ins sa da p.length protocol
        now) now).max_events = ins.max_events ∧
      (cleanup_expired_flows (inspectParsed ins sa da p.length protocol
        now) now).max_flows = ins.max_flows
    have hpar : (inspectParsed ins sa da p.length protocol
        now).traffic_events.length ≤
        (inspectParsed ins sa da p.length protocol now).max_events ∧
        (inspectParsed ins sa da p.length protocol now).flow_history.length ≤
          (inspectParsed ins sa da p.length protocol now).max_flows ∧
        (inspectParsed ins sa da p.length protocol now).max_events =
          ins.max_events ∧
        (inspectParsed ins sa da p.length protocol now).max_flows =
          ins.max_flows := by
      unfold inspectParsed
      cases hlk : lookupEntry (generate_flow_id sa da) ins.active_flows with
      | some f0 =>
        have hb := inspectHit_ring_bounds ins (generate_flow_id sa da) f0
          p.length protocol now he
        refine ⟨?_, ?_, hb.2.2.1, hb.2.2.2.1⟩
        · rw [hb.2.2.1]; exact hb.1
        · rw [hb.2.1, hb.2.2.2.1]; exact hh
      | none =>
        have hb := inspectMiss_ring_bounds ins (generate_flow_id sa da) sa da
          (determine_flow_direction ins sa da) p.length protocol now he
        refine ⟨?_, ?_, hb.2.2.1, hb.2.2.2.1⟩
        · rw [hb.2.2.1]; exact hb.1
        · rw [hb.2.1, hb.2.2.2.1]; exact hh
    have hcl := cleanup_ring_bounds _ now hpar.1 hpar.2.1
    refine ⟨?_, ?_, ?_, ?_⟩
    · rw [← hpar.2.2.1]; exact hcl.1
    · rw [← hpar.2.2.2]; exact hcl.2.1
    · rw [hcl.2.2.1, hpar.2.2.1]
    · rw [hcl.2.2.2, hpar.2.2.2]

theorem inspectAll_ring_bounds :
    ∀ (qs : List (PacketInfo × ProtocolType × ℚ)) (ins : TrafficInspector),
      ins.traffic_events.length ≤ ins.max_events →
      ins.flow_history.length ≤ ins.max_flows →
      (inspectAll ins qs).traffic_events.length ≤
        (inspectAll ins qs).max_events ∧
      (inspectAll ins qs).flow_history.length ≤
        (inspectAll ins qs).max_flows ∧
      (inspectAll ins qs).max_events = ins.max_events ∧
      (inspectAll ins qs).max_flows = ins.max_flows := by
  intro qs
  induction qs with
  | nil => intro ins he hh; exact ⟨he, hh, rfl, rfl⟩
  | cons q rest ih =>
    intro ins he hh
    have hstep := inspect_packet_ring_bounds ins q.1 q.2.1 q.2.2 he hh
    have hrec := ih (inspect_packet ins q.1 q.2.1 q.2.2)
      (hstep.2.2.1 ▸ hstep.1) (hstep.2.2.2 ▸ hstep.2.1)
    exact ⟨hrec.1, hrec.2.1, hrec.2.2.1.trans hstep.2.2.1,
      hrec.2.2.2.trans hstep.2.2.2⟩

/-- The pattern-ring maintenance loop of `analyze_traffic`
(src/traffic/analyzer.rs:161-166). -/
def pushPatterns (a : TrafficAnalyzer) (pats : List TrafficPattern) :
    TrafficAnalyzer :=
  pats.foldl
    (fun acc p => { acc with
      detected_patterns := ringPush acc.detected_patterns p
        acc.max_patterns })
    a

/-- The analyzer after the sample-collection step of a full run. -/
def analyzeSampled (a : TrafficAnalyzer)
    (flows : List (PairKey × TrafficFlow)) (now : ℚ) : TrafficAnalyzer :=
  { a with
    last_analysis := now
    bandwidth_samples :=
      ringDrain (a.bandwidth_samples ++ [collect_bandwidth_sample flows now])
        a.max_samples }

theorem analyze_full_snd (a : TrafficAnalyzer)
    (flows : List (PairKey × TrafficFlow)) (now : ℚ) :
    (analyze_full a flows now).2 =
      pushPatterns
        { analyzeSampled a flows now with
          protocol_cache :=
            (analyze_protocols (analyzeSampled a flows now) flows).2 }
        (detect_patterns (analyzeSampled a flows now) flows now) := rfl

theorem pushPatterns_bounds :
    ∀ (pats : List TrafficPattern) (a : TrafficAnalyzer),
      a.detected_patterns.length ≤ a.max_patterns →
      (pushPatterns a pats).detected_patterns.length ≤
        (pushPatterns a pats).max_patterns ∧
      (pushPatterns a pats).max_patterns = a.max_patterns ∧
      (pushPatterns a pats).max_samples = a.max_samples ∧
      (pushPatterns a pats).bandwidth_samples = a.bandwidth_samples := by
  intro pats
  induction pats with
  | nil => intro a h; exact ⟨h, rfl, rfl, rfl⟩
  | cons p ps ih =>
    intro a h
    exact ih
      { a with detected_patterns :=
          (ringPush a.detected_patterns p a.max_patterns) }
      (ringPush_length_le _ _ _ h)

theorem analyze_traffic_ring_bounds (a : TrafficAnalyzer)
    (flows : List (PairKey × TrafficFlow)) (now : ℚ)
    (hs : a.bandwidth_samples.length ≤ a.max_samples)
    (hp : a.detected_patterns.length ≤ a.max_patterns) :
    (analyze_traffic a flows now).2.bandwidth_samples.length ≤
      (analyze_traffic a flows now).2.max_samples ∧
    (analyze_traffic a flows now).2.detected_patterns.length ≤
      (analyze_traffic a flows now).2.max_patterns ∧
    (analyze_traffic a flows now).2.max_samples = a.max_samples ∧
    (analyze_traffic a flows now).2.max_patterns = a.max_patterns := by
  unfold analyze_traffic
  split
  · exact ⟨hs, hp, rfl, rfl⟩
  · rw [analyze_full_snd]
    have hb := pushPatterns_bounds
      (detect_patterns (analyzeSampled a flows now) flows now)
      { analyzeSampled a flows now with
        protocol_cache :=
          (analyze_protocols (analyzeSampled a flows now) flows).2 }
      hp
    refine ⟨?_, hb.1, ?_, hb.2.1⟩
    · rw [hb.2.2.2, hb.2.2.1]
      exact ringDrain_length_le _ _
    · exact hb.2.2.1

/-- Sequential application of `analyze_traffic` over flow snapshots. -/
def analyzeAll (a : TrafficAnalyzer)
    (rs : List (List (PairKey × TrafficFlow) × ℚ)) : TrafficAnalyzer :=
  rs.foldl (fun acc q => (analyze_traffic acc q.1 q.2).2) a

theorem analyzeAll_ring_bounds :
    ∀ (rs : List (List (PairKey × TrafficFlow) × ℚ)) (a : TrafficAnalyzer),
      a.bandwidth_samples.length ≤ a.max_samples →
      a.detected_patterns.length ≤ a.max_patterns →
      (analyzeAll a rs).bandwidth_samples.length ≤
        (analyzeAll a rs).max_samples ∧
      (analyzeAll a rs).detected_patterns.length ≤
        (analyzeAll a rs).max_patterns ∧
      (analyzeAll a rs).max_samples = a.max_samples ∧
      (analyzeAll a rs).max_patterns = a.max_patterns := by
  intro rs
  induction rs with
  | nil => intro a hs hp; exact ⟨hs, hp, rfl, rfl⟩
  | cons q rest ih =>
    intro a hs hp
    have hstep := analyze_traffic_ring_bounds a q.1 q.2 hs hp
    have hrec := ih (analyze_traffic a q.1 q.2).2
      (hstep.2.2.1 ▸ hstep.1) (hstep.2.2.2 ▸ hstep.2.1)
    exact ⟨hrec.1, hrec.2.1, hrec.2.2.1.trans hstep.2.2.1,
      hrec.2.2.2.trans hstep.2.2.2⟩

/-- C8: starting from the constructed components, after any sequence of
`process_packet`, `inspect_packet`, or `analyze_traffic` calls, no bounded
ring exceeds its configured cap: firewall recent events ≤ 1000, flow
inspector events ≤ 1000 and flow history ≤ 10000, bandwidth samples ≤ 3600,
detected patterns ≤ 100. -/
theorem ring_buffer_bounds :
    (∀ (t0 : ℚ) (ps : List (PacketInfo × ℚ)),
      (processPackets (FirewallEngine.new t0) ps).recent_events.length ≤
        1000) ∧
    (∀ qs : List (PacketInfo × ProtocolType × ℚ),
      (inspectAll TrafficInspector.new qs).traffic_events.length ≤ 1000 ∧
      (inspectAll TrafficInspector.new qs).flow_history.length ≤ 10000) ∧
    (∀ (t0 : ℚ) (rs : List (List (PairKey × TrafficFlow) × ℚ)),
      (analyzeAll (TrafficAnalyzer.new t0) rs).bandwidth_samples.length ≤
        3600 ∧
      (analyzeAll (TrafficAnalyzer.new t0) rs).detected_patterns.length ≤
        100) := by
  refine ⟨?_, ?_, ?_⟩
  · intro t0 ps
    have h := processPackets_ring_bounds ps (FirewallEngine.new t0)
      (Nat.zero_le _)
    exact le_of_le_of_eq h.1 h.2
  · intro qs
    have h := inspectAll_ring_bounds qs TrafficInspector.new
      (Nat.zero_le _) (Nat.zero_le _)
    exact ⟨le_of_le_of_eq h.1 h.2.2.1, le_of_le_of_eq h.2.1 h.2.2.2⟩
  · intro t0 rs
    have h := analyzeAll_ring_bounds rs (TrafficAnalyzer.new t0)
      (Nat.zero_le _) (Nat.zero_le _)
    exact ⟨le_of_le_of_eq h.1 h.2.2.1, le_of_le_of_eq h.2.1 h.2.2.2⟩

theorem mem_updateEntry {α : Type} [DecidableEq α] {β : Type} (k : α)
    (f : β → β) (d : β) :
    ∀ (m : List (α × β)) (kv : α × β),
      kv ∈ updateEntry k f d m → kv ∈ m ∨ kv.1 = k := by
  intro m
  induction m with
  | nil =>
    intro kv hkv
    simp only [updateEntry, List.mem_singleton] at hkv
    exact Or.inr (by rw [hkv])
  | cons hd tl ih =>
    intro kv hkv
    simp only [updateEntry] at hkv
    by_cases hk : hd.1 = k
    · rw [if_pos hk] at hkv
      rcases List.mem_cons.mp hkv with h | h
      · exact Or.inr (by rw [h, hk])
      · exact Or.inl (List.mem_cons_of_mem _ h)
    · rw [if_neg hk] at hkv
      rcases List.mem_cons.mp hkv with h | h
      · exact Or.inl (h ▸ List.mem_cons_self _ _)
      · rcases ih kv h with h' | h'
        · exact Or.inl (List.mem_cons_of_mem _ h')
        · exact Or.inr h'

theorem keys_updateEntry {α : Type} [DecidableEq α] {β : Type} (k : α)
    (f : β → β) (d : β) :
    ∀ m : List (α × β), (updateEntry k f d m).map Prod.fst =
      if k ∈ m.map Prod.fst then m.map Prod.fst
      else m.map Prod.fst ++ [k] := by
  intro m
  induction m with
  | nil => simp [updateEntry]
  | cons hd tl ih =>
    by_cases hk : hd.1 = k
    · simp [updateEntry, hk]
    · simp only [updateEntry, if_neg hk, List.map_cons, ih]
      by_cases hmem : k ∈ tl.map Prod.fst
      · simp [hmem, Ne.symm hk]
      · simp [hmem, Ne.symm hk]

theorem nodup_keys_updateEntry {α : Type} [DecidableEq α] {β : Type} (k : α)
    (f : β → β) (d : β) (m : List (α × β))
    (h : (m.map Prod.fst).Nodup) :
    ((updateEntry k f d m).map Prod.fst).Nodup := by
  rw [keys_updateEntry]
  by_cases hmem : k ∈ m.map Prod.fst
  · rw [if_pos hmem]; exact h
  · rw [if_neg hmem, List.nodup_append]
    refine ⟨h, List.nodup_singleton _, ?_⟩
    intro a ha hb
    rw [List.mem_singleton] at hb
    subst hb
    exact hmem ha

theorem mem_keys_updateEntry_of_mem {α : Type} [DecidableEq α] {β : Type}
    (k : α) (f : β → β) (d : β) (m : List (α × β)) (k' : α)
    (h : k' ∈ m.map Prod.fst) :
    k' ∈ (updateEntry k f d m).map Prod.fst := by
  rw [keys_updateEntry]
  by_cases hmem : k ∈ m.map Prod.fst
  · rw [if_pos hmem]; exact h
  · rw [if_neg hmem]; exact List.mem_append_left _ h

theorem self_mem_keys_updateEntry {α : Type} [DecidableEq α] {β : Type}
    (k : α) (f : β → β) (d : β) (m : List (α × β)) :
    k ∈ (updateEntry k f d m).map Prod.fst := by
  rw [keys_updateEntry]
  by_cases hmem : k ∈ m.map Prod.fst
  · rw [if_pos hmem]; exact hmem
  · rw [if_neg hmem]; exact List.mem_append_right _ (List.mem_singleton_self k)

theorem lastSeen_updateEntry {α : Type} [DecidableEq α] (k : α)
    (f : ConnectionInfo → ConnectionInfo) (d : ConnectionInfo) (now : ℚ)
    (hf : ∀ v, (f v).last_seen = now) :
    ∀ (m : List (α × ConnectionInfo)), (m.map Prod.fst).Nodup →
      ∀ kv : α × ConnectionInfo, kv ∈ updateEntry k f d m →
      (kv ∈ m ∧ kv.1 ≠ k) ∨ kv.2.last_seen = now := by
  intro m
  induction m with
  | nil =>
    intro _ kv hkv
    simp only [updateEntry, List.mem_singleton] at hkv
    exact Or.inr (by rw [hkv]; exact hf d)
  | cons hd tl ih =>
    intro hnd kv hkv
    rw [List.map_cons, List.nodup_cons] at hnd
    simp only [updateEntry] at hkv
    by_cases hk : hd.1 = k
    · rw [if_pos hk] at hkv
      rcases List.mem_cons.mp hkv with h | h
      · exact Or.inr (by rw [h]; exact hf hd.2)
      · refine Or.inl ⟨List.mem_cons_of_mem _ h, ?_⟩
        intro hkk
        apply hnd.1
        rw [hk, ← hkk]
        exact List.mem_map_of_mem Prod.fst h
    · rw [if_neg hk] at hkv
      rcases List.mem_cons.mp hkv with h | h
      · exact Or.inl ⟨h ▸ List.mem_cons_self _ _, h ▸ hk⟩
      · rcases ih hnd.2 kv h with ⟨h1, h2⟩ | h'
        · exact Or.inl ⟨List.mem_cons_of_mem _ h1, h2⟩
        · exact Or.inr h'

/-- The pair key derived from a proc snapshot entry. -/
def procKey (c : TcpConnection) : PairKey :=
  connection_key c.local_addr c.remote_addr

theorem procStep_fst (now : ℚ)
    (st : List (PairKey × ConnectionInfo) × ProtocolAnalyzer)
    (c : TcpConnection) :
    (procStep now st c).1 =
      updateEntry (procKey c)
        (fun ci => { ci with
          state := convert_tcp_state c.state
          last_seen := now
          protocol := (identify_protocol_from_connection st.2 c now).1 })
        (freshProcConn c (identify_protocol_from_connection st.2 c now).1 now)
        st.1 := rfl

theorem mem_foldProc (now : ℚ) :
    ∀ (L : List TcpConnection)
      (st : List (PairKey × ConnectionInfo) × ProtocolAnalyzer)
      (kv : PairKey × ConnectionInfo),
      kv ∈ (L.foldl (procStep now) st).1 →
      kv ∈ st.1 ∨ kv.1 ∈ L.map procKey := by
  intro L
  induction L with
  | nil => intro st kv h; exact Or.inl h
  | cons c cs ih =>
    intro st kv h
    rw [List.foldl_cons] at h
    rcases ih (procStep now st c) kv h with h' | h'
    · rw [procStep_fst] at h'
      rcases mem_updateEntry _ _ _ _ _ h' with h2 | h2
      · exact Or.inl h2
      · exact Or.inr (by rw [List.map_cons]; exact h2 ▸
          List.mem_cons_self _ _)
    · exact Or.inr (List.map_cons _ _ _ ▸ List.mem_cons_of_mem _ h')

theorem keys_mono_foldProc (now : ℚ) :
    ∀ (L : List TcpConnection)
      (st : List (PairKey × ConnectionInfo) × ProtocolAnalyzer)
      (k : PairKey), k ∈ st.1.map Prod.fst →
      k ∈ (L.foldl (procStep now) st).1.map Prod.fst := by
  intro L
  induction L with
  | nil => intro st k h; exact h
  | cons c cs ih =>
    intro st k h
    rw [List.foldl_cons]
    apply ih
    rw [procStep_fst]
    exact mem_keys_updateEntry_of_mem _ _ _ _ _ h

theorem keys_new_foldProc (now : ℚ) :
    ∀ (L : List TcpConnection)
      (st : List (PairKey × ConnectionInfo) × ProtocolAnalyzer)
      (c : TcpConnection), c ∈ L →
      procKey c ∈ (L.foldl (procStep now) st).1.map Prod.fst := by
  intro L
  induction L with
  | nil => intro st c h; cases h
  | cons c0 cs ih =>
    intro st c h
    rw [List.foldl_cons]
    rcases List.mem_cons.mp h with h' | h'
    · subst h'
      apply keys_mono_foldProc
      rw [procStep_fst]
      exact self_mem_keys_updateEntry _ _ _ _
    · exact ih _ c h'

theorem nodup_lastSeen_foldProc (now : ℚ) :
    ∀ (L : List TcpConnection)
      (st : List (PairKey × ConnectionInfo) × ProtocolAnalyzer),
      (st.1.map Prod.fst).Nodup →
      (∀ kv ∈ st.1, kv.1 ∈ L.map procKey ∨ kv.2.last_seen = now) →
      ((L.foldl (procStep now) st).1.map Prod.fst).Nodup ∧
      ∀ kv ∈ (L.foldl (procStep now) st).1, kv.2.last_seen = now := by
  intro L
  induction L with
  | nil =>
    intro st hnd hall
    refine ⟨hnd, ?_⟩
    intro kv hkv
    rcases hall kv hkv with h | h
    · simp at h
    · exact h
  | cons c cs ih =>
    intro st hnd hall
    rw [List.foldl_cons]
    apply ih
    · rw [procStep_fst]
      exact nodup_keys_updateEntry _ _ _ _ hnd
    · intro kv hkv
      rw [procStep_fst] at hkv
      rcases lastSeen_updateEntry _ _ _ now (fun v => rfl) _ hnd kv hkv
        with ⟨h1, h2⟩ | h'
      · rcases hall kv h1 with h3 | h3
        · rw [List.map_cons] at h3
          rcases List.mem_cons.mp h3 with h4 | h4
          · exact absurd h4 h2
          · exact Or.inl h4
        · exact Or.inr h3
      · exact Or.inr h'

theorem connAlive_fresh (timeout now : ℚ) (kv : PairKey × ConnectionInfo)
    (h : kv.2.last_seen = now) :
    connAlive timeout now kv = decide (0 < timeout) := by
  simp [connAlive, duration_since, h]

theorem cleanup_sub (t : ConnectionTracker) (now : ℚ) :
    ∀ kv ∈ (cleanup_old_connections t now).active_connections,
      kv ∈ t.active_connections := by
  intro kv hkv
  simp only [cleanup_old_connections] at hkv
  split at hkv
  · exact List.mem_of_mem_filter (List.mem_of_mem_filter hkv)
  · exact List.mem_of_mem_filter hkv

theorem cleanup_fresh_cases (t : ConnectionTracker) (now : ℚ)
    (hall : ∀ kv ∈ t.active_connections, kv.2.last_seen = now) :
    (0 < t.connection_timeout →
      t.active_connections.length ≤ t.max_connections →
      (cleanup_old_connections t now).active_connections =
        t.active_connections) ∧
    (t.connection_timeout ≤ 0 →
      (cleanup_old_connections t now).active_connections = []) := by
  constructor
  · intro hpos hlen
    have hfil : t.active_connections.filter
        (connAlive t.connection_timeout now) = t.active_connections := by
      apply List.filter_eq_self.mpr
      intro kv hkv
      rw [connAlive_fresh _ _ _ (hall kv hkv)]
      exact decide_eq_true hpos
    simp only [cleanup_old_connections, hfil]
    rw [if_neg (by omega)]
  · intro hneg
    have hfil : t.active_connections.filter
        (connAlive t.connection_timeout now) = [] := by
      apply List.filter_eq_nil_iff.mpr
      intro kv hkv
      rw [connAlive_fresh _ _ _ (hall kv hkv)]
      simp only [decide_eq_true_eq]
      intro hc
      linarith
    simp only [cleanup_old_connections, hfil]
    rw [if_neg (by simp)]

/-- The intermediate map-and-classifier state of `update_from_proc`, after
retention filtering and the upsert fold but before eviction. -/
def procFolded (t : ConnectionTracker) (L : List TcpConnection) (now : ℚ) :
    List (PairKey × ConnectionInfo) × ProtocolAnalyzer :=
  L.foldl (procStep now)
    (t.active_connections.filter fun kv => (L.map procKey).contains kv.1,
     t.protocol_analyzer)

def procMid (t : ConnectionTracker) (L : List TcpConnection) (now : ℚ) :
    ConnectionTracker :=
  { t with
    active_connections := (procFolded t L now).1
    protocol_analyzer := (procFolded t L now).2 }

theorem update_from_proc_eq (t : ConnectionTracker) (L : List TcpConnection)
    (now : ℚ) :
    update_from_proc t L now =
      cleanup_old_connections (procMid t L now) now := rfl

/-- C2: after `update_from_proc(L)` the tracker's active key set equals the
set of pair keys derived from `L` minus keys evicted by the timeout or the
cap: (1) every remaining key is derived from `L` — in particular every
pre-existing entry whose key is not derived from `L` is removed; (2) when
neither eviction rule can fire (positive timeout, distinct derived keys
within the cap) the key set is exactly the derived key set; (3) a derived
key can only be missing because the timeout rule fired (timeout ≤ 0: every
upserted entry has `last_seen = now`, hence idle time 0 ≥ timeout) or the
cap rule fired (more distinct derived keys than the cap). -/
theorem update_from_proc_reconciliation (t : ConnectionTracker)
    (L : List TcpConnection) (now : ℚ)
    (hnd : (t.active_connections.map Prod.fst).Nodup) :
    (∀ k ∈ (update_from_proc t L now).active_connections.map Prod.fst,
      k ∈ L.map procKey) ∧
    (0 < t.connection_timeout →
      (L.map procKey).dedup.length ≤ t.max_connections →
      ∀ k, k ∈ (update_from_proc t L now).active_connections.map Prod.fst ↔
        k ∈ L.map procKey) ∧
    (∀ k ∈ L.map procKey,
      k ∉ (update_from_proc t L now).active_connections.map Prod.fst →
      t.connection_timeout ≤ 0 ∨
        t.max_connections < (L.map procKey).dedup.length) := by
  have hretnd : ((t.active_connections.filter fun kv =>
      (L.map procKey).contains kv.1).map Prod.fst).Nodup :=
    List.Nodup.sublist ((List.filter_sublist _).map Prod.fst) hnd
  have hall0 : ∀ kv ∈ t.active_connections.filter fun kv =>
      (L.map procKey).contains kv.1,
      kv.1 ∈ L.map procKey ∨ kv.2.last_seen = now := by
    intro kv hkv
    have := (List.mem_filter.mp hkv).2
    exact Or.inl (by simpa using this)
  have hall2 := nodup_lastSeen_foldProc now L
    (t.active_connections.filter fun kv => (L.map procKey).contains kv.1,
     t.protocol_analyzer) hretnd hall0
  have hkeys : ∀ k, k ∈ (procFolded t L now).1.map Prod.fst ↔
      k ∈ L.map procKey := by
    intro k
    constructor
    · intro hk
      obtain ⟨kv, hkv, hfst⟩ := List.mem_map.mp hk
      rcases mem_foldProc now L _ kv hkv with h | h
      · have := (List.mem_filter.mp h).2
        rw [← hfst]
        simpa using this
      · rw [← hfst]
        exact h
    · intro hk
      obtain ⟨c, hc, hck⟩ := List.mem_map.mp hk
      rw [← hck]
      exact keys_new_foldProc now L _ c hc
  have hlen : (procFolded t L now).1.length =
      (L.map procKey).dedup.length := by
    have h1 : ((procFolded t L now).1.map Prod.fst).toFinset =
        (L.map procKey).dedup.toFinset := by
      ext x
      simp only [List.mem_toFinset, List.mem_dedup]
      exact hkeys x
    have h2 := List.toFinset_card_of_nodup hall2.1
    have h3 := List.toFinset_card_of_nodup (List.nodup_dedup (L.map procKey))
    calc (procFolded t L now).1.length
        = ((procFolded t L now).1.map Prod.fst).length :=
          (List.length_map _ _).symm
      _ = ((procFolded t L now).1.map Prod.fst).toFinset.card := h2.symm
      _ = (L.map procKey).dedup.toFinset.card := by rw [h1]
      _ = (L.map procKey).dedup.length := h3
  have hfreshMid : ∀ kv ∈ (procMid t L now).active_connections,
      kv.2.last_seen = now := hall2.2
  refine ⟨?_, ?_, ?_⟩
  · intro k hk
    rw [update_from_proc_eq] at hk
    obtain ⟨kv, hkv, hfst⟩ := List.mem_map.mp hk
    have hmem := cleanup_sub _ now kv hkv
    rw [← hfst]
    exact (hkeys kv.1).mp (List.mem_map_of_mem Prod.fst hmem)
  · intro hpos hdl k
    have heq := (cleanup_fresh_cases (procMid t L now) now hfreshMid).1 hpos
      (by
        show (procFolded t L now).1.length ≤ t.max_connections
        rw [hlen]
        exact hdl)
    rw [update_from_proc_eq, heq]
    exact hkeys k
  · intro k hk hnot
    by_contra hcon
    push_neg at hcon
    obtain ⟨h1, h2⟩ := hcon
    have hpos : 0 < t.connection_timeout := h1
    have hdl : (L.map procKey).dedup.length ≤ t.max_connections := h2
    have heq := (cleanup_fresh_cases (procMid t L now) now hfreshMid).1 hpos
      (by
        show (procFolded t L now).1.length ≤ t.max_connections
        rw [hlen]
        exact hdl)
    apply hnot
    rw [update_from_proc_eq, heq]
    exact (hkeys k).mpr hk

/-- A one-entry proc snapshot for the C2 witness. -/
def c2Conn : TcpConnection :=
  { local_addr := ⟨.v4 192 168 1 2, 443⟩
    remote_addr := ⟨.v4 10 1 1 1, 55555⟩
    state := .established
    inode := 42
    uid := 1000 }

theorem update_from_proc_reconciliation_witness :
    ((ConnectionTracker.new.active_connections.map Prod.fst).Nodup) ∧
    ((∀ k ∈ (update_from_proc ConnectionTracker.new [c2Conn]
        7).active_connections.map Prod.fst, k ∈ [c2Conn].map procKey) ∧
     (0 < ConnectionTracker.new.connection_timeout →
        ([c2Conn].map procKey).dedup.length ≤
          ConnectionTracker.new.max_connections →
        ∀ k, k ∈ (update_from_proc ConnectionTracker.new [c2Conn]
          7).active_connections.map Prod.fst ↔ k ∈ [c2Conn].map procKey) ∧
     (∀ k ∈ [c2Conn].map procKey,
        k ∉ (update_from_proc ConnectionTracker.new [c2Conn]
          7).active_connections.map Prod.fst →
        ConnectionTracker.new.connection_timeout ≤ 0 ∨
          ConnectionTracker.new.max_connections <
            ([c2Conn].map procKey).dedup.length)) :=
  ⟨by simp [ConnectionTracker.new],
   update_from_proc_reconciliation ConnectionTracker.new [c2Conn] 7
     (by simp [ConnectionTracker.new])⟩
